import Mathlib

/-!
# Verification of the rest-api-doc-generator core

Shallow embedding of the route-extraction and documentation-synthesis
pipeline of the repository, together with proofs and refutations of the
claims made by its specification.

The embedded units are:
* `RouteParser` (src/parsers/RouteParser.ts): path-parameter scanning,
  AST-based route extraction, response synthesis;
* `OpenAPIGenerator` (src/generators/OpenAPIGenerator.ts): document
  construction, manual and AI-fragment route merging, tag extraction;
* `OpenRouterClient` (src/services/OpenRouterClient.ts): retry/backoff and
  error mapping;
* `PromptBuilder.extractYAML` (as embedded in src/test/extension.test.ts);
* `ValidationService` (src/services/DocumentationService.ts).
-/

set_option maxRecDepth 4000

/-! ## Character classes used by the source regexes -/

/-- The regex class `[a-zA-Z_]` (start of an Express path parameter name). -/
def isIdentStart (c : Char) : Bool := c.isAlpha || c == '_'

/-- The regex class `[a-zA-Z0-9_]` (continuation of a parameter name). -/
def isIdentChar (c : Char) : Bool := isIdentStart c || c.isDigit

/-! ## RouteParser.extractPathParameters

The source scans the route path with the global regex
`/:([a-zA-Z_][a-zA-Z0-9_]*)\??/g` and pushes one parameter record per
match, with `required = !isOptional` where `isOptional` holds iff the
matched token ends in `?`.  We embed the regex loop as a character-level
state machine. -/

/-- State of the scan: searching for `:`, just consumed a `:`, or inside
the captured identifier (accumulated in reverse). -/
inductive PState where
  | plain
  | afterColon
  | identAcc (acc : List Char)

/-- The regex-exec loop of `extractPathParameters`: yields, left to right,
the captured name of each match of `:([a-zA-Z_][a-zA-Z0-9_]*)\??` together
with the flag "the match ended in `?`".  A failed attempt at a `:` advances
one character, exactly like the JS regex engine. -/
def scanParams : PState → List Char → List (String × Bool)
  | .plain, [] => []
  | .plain, c :: rest =>
      if c == ':' then scanParams .afterColon rest else scanParams .plain rest
  | .afterColon, [] => []
  | .afterColon, c :: rest =>
      if isIdentStart c then scanParams (.identAcc [c]) rest
      else if c == ':' then scanParams .afterColon rest
      else scanParams .plain rest
  | .identAcc acc, [] => [(String.mk acc.reverse, false)]
  | .identAcc acc, c :: rest =>
      if isIdentChar c then scanParams (.identAcc (c :: acc)) rest
      else if c == '?' then (String.mk acc.reverse, true) :: scanParams .plain rest
      else if c == ':' then (String.mk acc.reverse, false) :: scanParams .afterColon rest
      else (String.mk acc.reverse, false) :: scanParams .plain rest

/-- `RouteParameter` from src/types/RouteInfo.ts (the `description` field is
never set by the parser and is omitted). -/
structure RouteParameter where
  name : String
  type : String
  required : Bool
  dataType : String
deriving DecidableEq, Repr

/-- `RouteParser.extractPathParameters`: one record per regex match, in
match order, `required` iff the token did not end in `?`. -/
def extractPathParameters (routePath : String) : List RouteParameter :=
  (scanParams .plain routePath.data).map fun m =>
    { name := m.1, type := "path", required := !m.2, dataType := "string" }

/-! ### Abstract path syntax, for stating what the scanner recovers -/

/-- A path segment as written between `/` separators: either a literal or an
Express `:name` / `:name?` parameter token. -/
inductive PathSeg where
  | lit (s : String)
  | param (name : String) (optional : Bool)

/-- Characters of one rendered segment. -/
def renderSeg : PathSeg → List Char
  | .lit s => s.data
  | .param n opt => ':' :: n.data ++ (if opt then ['?'] else [])

/-- Render an abstract path: `/seg1/seg2/...`. -/
def renderPath (segs : List PathSeg) : String :=
  String.mk ((segs.map fun s => '/' :: renderSeg s).flatten)

/-- A well-formed parameter name: matches `[a-zA-Z_][a-zA-Z0-9_]*`. -/
def validIdent : List Char → Bool
  | [] => false
  | c :: cs => isIdentStart c && cs.all isIdentChar

/-- Well-formed segment: literals carry no `:`, parameter names are valid
identifiers. -/
def segWF : PathSeg → Bool
  | .lit s => s.data.all (· != ':')
  | .param n _ => validIdent n.data

/-- The parameter record a segment should contribute. -/
def segParam : PathSeg → Option RouteParameter
  | .lit _ => none
  | .param n opt => some { name := n, type := "path", required := !opt, dataType := "string" }

/-- The raw (name, optional) token a segment should contribute to the scan. -/
def segTok : PathSeg → Option (String × Bool)
  | .lit _ => none
  | .param n opt => some (n, opt)

/-! ## PromptBuilder.extractYAML (src/test/extension.test.ts)

```
let yaml = response.trim();
yaml = yaml.replace(/^```yaml\s*/i, '');
yaml = yaml.replace(/^```yml\s*/i, '');
yaml = yaml.replace(/^```\s*/, '');
yaml = yaml.replace(/\s*```\s*$/, '');
return yaml.trim();
```
-/

/-- The backtick character (avoids a literal backtick in code). -/
def backtickChar : Char := Char.ofNat 96

/-- The ASCII whitespace characters matched by JS `\s` / trimmed by
`String.prototype.trim` that can occur in this pipeline. -/
def isJsWs (c : Char) : Bool :=
  c == ' ' || c == '\t' || c == '\n' || c == '\r' || c == '\x0b' || c == '\x0c'

/-- `String.prototype.trim`. -/
def jsTrim (l : List Char) : List Char :=
  List.rdropWhile isJsWs (List.dropWhile isJsWs l)

/-- ASCII lower-casing on character codes (the canonicalization performed by
the regex `i` flag on the ASCII patterns used here). -/
def lowerCode (n : Nat) : Nat := if 65 ≤ n ∧ n ≤ 90 then n + 32 else n

/-- Case-insensitive character comparison (regex `i` flag, ASCII). -/
def ciEq (p c : Char) : Bool := lowerCode p.toNat == lowerCode c.toNat

/-- Anchored case-insensitive prefix match: `some rest` iff the pattern
matches a prefix of the input, returning the remainder. -/
def matchPrefixCI : List Char → List Char → Option (List Char)
  | [], l => some l
  | _ :: _, [] => none
  | p :: ps, c :: cs => if ciEq p c then matchPrefixCI ps cs else none

/-- One `replace(/^```marker\s*/i, '')` step: if the fence-plus-marker
pattern matches at the start, remove it together with the following
whitespace run (the greedy `\s*`); otherwise return the input unchanged. -/
def replaceFencePrefix (marker : List Char) (l : List Char) : List Char :=
  match matchPrefixCI (backtickChar :: backtickChar :: backtickChar :: marker) l with
  | some rest => rest.dropWhile isJsWs
  | none => l

/-- The `replace(/\s*```\s*$/, '')` step: a match must end the string, so it
exists iff the string, ignoring trailing whitespace, ends in three backticks;
the leftmost match also swallows the whitespace run before the backticks. -/
def replaceFenceSuffix (l : List Char) : List Char :=
  let t := List.rdropWhile isJsWs l
  if [backtickChar, backtickChar, backtickChar].isSuffixOf t then
    List.rdropWhile isJsWs (t.take (t.length - 3))
  else l

/-- `PromptBuilder.extractYAML` on character lists. -/
def extractYAMLChars (response : List Char) : List Char :=
  let y := jsTrim response
  let y := replaceFencePrefix ['y', 'a', 'm', 'l'] y
  let y := replaceFencePrefix ['y', 'm', 'l'] y
  let y := replaceFencePrefix [] y
  let y := replaceFenceSuffix y
  jsTrim y

/-- `PromptBuilder.extractYAML`. -/
def extractYAML (response : String) : String :=
  String.mk (extractYAMLChars response.data)

/-! ## A model of JavaScript values

Used for OpenAPI path items / operations (which after AI merging can hold
arbitrary YAML-derived data) and for parsed YAML documents. -/

inductive JVal where
  | str (s : String)
  | num (n : Int)
  | bool (b : Bool)
  | null
  | undefinedVal
  | arr (elems : List JVal)
  | obj (fields : List (String × JVal))
deriving Repr

/-- JS truthiness. -/
def jsTruthy : JVal → Bool
  | .undefinedVal => false
  | .null => false
  | .bool b => b
  | .num n => n != 0
  | .str s => s != ""
  | .arr _ => true
  | .obj _ => true

/-- Assignment `l[k] = v` on an association list: replace the first binding
in place, else append (JS object property insertion order). -/
def setAssoc {α : Type} : List (String × α) → String → α → List (String × α)
  | [], k, v => [(k, v)]
  | (k', v') :: rest, k, v =>
      if k' == k then (k, v) :: rest else (k', v') :: setAssoc rest k v

/-- Pair the elements of a list with their stringified indices (the own
enumerable keys of a JS array / string). -/
def withIdx {α : Type} : Nat → List α → List (String × α)
  | _, [] => []
  | i, x :: xs => (toString i, x) :: withIdx (i + 1) xs

/-- The own enumerable string keys of a value (assuming it is not
null/undefined).  Keys of the objects built here are unique. -/
def jsKeys : JVal → List String
  | .obj fields => fields.map Prod.fst
  | .arr xs => (withIdx 0 xs).map Prod.fst
  | .str s => (withIdx 0 s.data).map Prod.fst
  | _ => []

/-- `Object.keys(v)`: throws (TypeError) on null/undefined. -/
def jsKeysE (v : JVal) : Except Unit (List String) :=
  match v with
  | .null => .error ()
  | .undefinedVal => .error ()
  | _ => .ok (jsKeys v)

/-- Property read `v[k]` on a non-null, non-undefined value. -/
def jsGet (v : JVal) (k : String) : JVal :=
  match v with
  | .obj fields => (List.lookup k fields).getD .undefinedVal
  | .arr xs =>
      match k.toNat? with
      | some i => (xs.get? i).getD .undefinedVal
      | none => .undefinedVal
  | .str s =>
      match k.toNat? with
      | some i => ((s.data.get? i).map fun c => JVal.str (String.mk [c])).getD .undefinedVal
      | none => .undefinedVal
  | _ => .undefinedVal

/-- `Object.values(v)`: throws on null/undefined. -/
def jsValuesE (v : JVal) : Except Unit (List JVal) :=
  match v with
  | .null => .error ()
  | .undefinedVal => .error ()
  | .obj fields => .ok (fields.map Prod.snd)
  | .arr xs => .ok xs
  | .str s => .ok (s.data.map fun c => JVal.str (String.mk [c]))
  | _ => .ok []

/-- The own enumerable (key, value) pairs `Object.assign` copies from a
source value (null/undefined sources are ignored; number/boolean primitives
have no own enumerable properties). -/
def srcFields : JVal → List (String × JVal)
  | .obj fields => fields
  | .arr xs => withIdx 0 xs
  | .str s => withIdx 0 (s.data.map fun c => JVal.str (String.mk [c]))
  | _ => []

/-- `Object.assign(target, src)` as used on a path item: merges the source
fields into an object target.  A primitive target would be boxed by JS and
the writes lost (or a TypeError raised); modeled as leaving it unchanged —
the theorems below only rely on object path items. -/
def objectAssign (target src : JVal) : JVal :=
  match target with
  | .obj fields => .obj ((srcFields src).foldl (fun fs kv => setAssoc fs kv.1 kv.2) fields)
  | other => other

/-- Field lookup inside a `JVal.obj`. -/
def jvalLookup : JVal → String → Option JVal
  | .obj fields, k => List.lookup k fields
  | _, _ => none

/-! ## Route records (src/types/RouteInfo.ts) -/

/-- `RouteResponse`. -/
structure RouteResponse where
  statusCode : Int
  description : String
  contentType : Option String
  schema : Option JVal
deriving Repr

/-- `MiddlewareInfo`. -/
structure MiddlewareInfo where
  name : String
  type : String
deriving DecidableEq, Repr

/-- `RouteInfo`.  `lineNumber` is always `none` here: source locations are
metadata of the concrete Babel parse and play no role in any claim. -/
structure RouteInfo where
  method : String
  path : String
  handler : String
  description : Option String
  parameters : List RouteParameter
  responses : List RouteResponse
  middlewares : List MiddlewareInfo
  filePath : String
  lineNumber : Option Nat
deriving Repr

/-! ## OpenAPIGenerator (src/unnamed/part_009) -/

/-- One entry of the document `tags` array. -/
structure OpenAPITag where
  name : String
  description : String
deriving DecidableEq, Repr

/-- The `OpenAPIDocument` held by the generator.  `paths` maps OpenAPI path
templates to path items (`JVal`, since AI merging can store arbitrary
YAML-derived values there). -/
structure OpenAPIDoc where
  openapi : String
  infoTitle : String
  infoVersion : String
  infoDescription : String
  servers : List (String × String)
  paths : List (String × JVal)
  schemas : List (String × JVal)
  tags : List OpenAPITag
deriving Repr

/-- The document built by the `OpenAPIGenerator` constructor (default
arguments). -/
def initialDocument : OpenAPIDoc where
  openapi := "3.1.0"
  infoTitle := "REST API Documentation"
  infoVersion := "1.0.0"
  infoDescription := "Auto-generated API documentation"
  servers := [("http://localhost:3000", "Development server")]
  paths := []
  schemas := []
  tags := []

/-- `split('/')` (structurally recursive, so concrete documents evaluate
inside the kernel). -/
def splitOnChar (sep : Char) : List Char -> List (List Char)
  | [] => [[]]
  | c :: cs =>
      let rest := splitOnChar sep cs
      if c == sep then [] :: rest
      else
        match rest with
        | [] => [[c]]
        | g :: gs => (c :: g) :: gs

/-- `String.prototype.split('/')`. -/
def jsSplitSlash (s : String) : List String := (splitOnChar '/' s.data).map String.mk

/-- `String.prototype.startsWith`. -/
def strStartsWith (s p : String) : Bool := p.data.isPrefixOf s.data

/-- `String.prototype.toLowerCase` (ASCII). -/
def strToLower (s : String) : String := String.mk (s.data.map Char.toLower)

/-- `String.prototype.toUpperCase` (ASCII). -/
def strToUpper (s : String) : String := String.mk (s.data.map Char.toUpper)

/-- `convertPathToOpenAPI`: the global replace
`path.replace(/:([a-zA-Z_][a-zA-Z0-9_]*)/g, '{$1}')` as a state machine
(same match discipline as `scanParams`, but no `?` handling, and
non-matching text is copied through). -/
def convertAux : PState → List Char → List Char
  | .plain, [] => []
  | .plain, c :: rest =>
      if c == ':' then convertAux .afterColon rest else c :: convertAux .plain rest
  | .afterColon, [] => [':']
  | .afterColon, c :: rest =>
      if isIdentStart c then convertAux (.identAcc [c]) rest
      else if c == ':' then ':' :: convertAux .afterColon rest
      else ':' :: c :: convertAux .plain rest
  | .identAcc acc, [] => '\x7b' :: (acc.reverse ++ ['\x7d'])
  | .identAcc acc, c :: rest =>
      if isIdentChar c then convertAux (.identAcc (c :: acc)) rest
      else if c == ':' then ('\x7b' :: (acc.reverse ++ ['\x7d'])) ++ convertAux .afterColon rest
      else ('\x7b' :: (acc.reverse ++ ['\x7d'])) ++ c :: convertAux .plain rest

/-- `convertPathToOpenAPI` (`/users/:id` becomes `/users/{id}`). -/
def convertPathToOpenAPI (expressPath : String) : String :=
  String.mk (convertAux .plain expressPath.data)

/-- `path.replace(/^\//, '')`: drop a single leading slash. -/
def stripLeadingSlash (s : String) : String :=
  match s.data with
  | '/' :: rest => String.mk rest
  | _ => s

/-- `charAt(0).toUpperCase() + slice(1)`. -/
def capitalize (s : String) : String :=
  match s.data with
  | [] => ""
  | c :: cs => String.mk (c.toUpper :: cs)

/-- `getResourceFromPath`: first `/`-segment (after removing one leading
slash), with fallback `'resource'` for an empty segment, capitalized. -/
def getResourceFromPath (path : String) : String :=
  let segments := jsSplitSlash (stripLeadingSlash path)
  let resource :=
    match segments with
    | [] => "resource"
    | s :: _ => if s == "" then "resource" else s
  capitalize resource

/-- `getActionFromMethod` (total lookup over the seven `HttpMethod` values;
other strings cannot reach it). -/
def getActionFromMethod (method : String) : String :=
  if method == "GET" then "Get"
  else if method == "POST" then "Create"
  else if method == "PUT" then "Update"
  else if method == "DELETE" then "Delete"
  else if method == "PATCH" then "Update"
  else if method == "OPTIONS" then "Options"
  else if method == "HEAD" then "Head"
  else ""

/-- `generateSummary`. -/
def generateSummary (route : RouteInfo) : String :=
  getActionFromMethod route.method ++ " " ++ getResourceFromPath route.path

/-- `generateOperationId`: `<method><Resource>` with `ById` appended iff the
path contains a `:`. -/
def generateOperationId (route : RouteInfo) : String :=
  let m := strToLower route.method
  let resource := getResourceFromPath route.path
  if route.path.data.contains ':' then m ++ resource ++ "ById"
  else m ++ resource

/-- `extractTagsFromPath`: capitalized first non-parameter segment, else
`["Default"]`. -/
def extractTagsFromPath (path : String) : List String :=
  let segments := jsSplitSlash (stripLeadingSlash path)
  let nonParamSegments := segments.filter fun seg =>
    !(strStartsWith seg ":") && !(strStartsWith seg "\x7b") && !(seg == "")
  match nonParamSegments with
  | [] => ["Default"]
  | resource :: _ => [capitalize resource]

/-- `param.dataType || 'string'` / `route.description || fallback`:
JS `||` with a string left operand falls through on the empty string. -/
def jsOrStr (s fallback : String) : String := if s == "" then fallback else s

/-- `jsOrStr` over an optional field (absent = `undefined`, falsy). -/
def jsOrStrOpt (o : Option String) (fallback : String) : String :=
  match o with
  | some s => jsOrStr s fallback
  | none => fallback

/-- `buildParameters`: path and query parameters as OpenAPI parameter
objects (body parameters excluded). -/
def buildParameters (route : RouteInfo) : List JVal :=
  (route.parameters.filter fun p => p.type == "path" || p.type == "query").map fun p =>
    JVal.obj [("name", .str p.name),
              ("in", .str (if p.type == "path" then "path" else "query")),
              ("description", .str (p.name ++ " parameter")),
              ("required", .bool p.required),
              ("schema", .obj [("type", .str (jsOrStr p.dataType "string"))])]

/-- `buildRequestBody`. -/
def buildRequestBody (bodyParams : List RouteParameter) : JVal :=
  let properties := bodyParams.foldl
    (fun fs p => setAssoc fs p.name (JVal.obj [("type", .str (jsOrStr p.dataType "string"))])) []
  let required := (bodyParams.filter (·.required)).map (·.name)
  JVal.obj [("description", .str "Request body"),
            ("required", .bool (!required.isEmpty)),
            ("content", .obj [("application/json", .obj [("schema", .obj
              ([("type", .str "object"), ("properties", .obj properties)]
                ++ (if required.isEmpty then [] else [("required", .arr (required.map .str))])))])])]

/-- The default response schema
`{ type: 'object', properties: { message: { type: 'string' } } }`. -/
def defaultMsgSchema : JVal :=
  .obj [("type", .str "object"), ("properties", .obj [("message", .obj [("type", .str "string")])])]

/-- `buildResponses`: one entry per response keyed by status code (later
duplicates overwrite), `content` present only for a truthy contentType, and
a guaranteed `"200"` entry. -/
def buildResponses (route : RouteInfo) : JVal :=
  let responses := route.responses.foldl
    (fun acc response => setAssoc acc (toString response.statusCode)
      (JVal.obj ([("description", .str response.description)] ++
        (match response.contentType with
         | some ct =>
             if ct == "" then []
             else [("content", JVal.obj [(ct, .obj [("schema", response.schema.getD defaultMsgSchema)])])]
         | none => []))))
    []
  let responses :=
    if (List.lookup "200" responses).isSome then responses
    else setAssoc responses "200"
      (JVal.obj [("description", .str "Successful response"),
                 ("content", .obj [("application/json", .obj [("schema", .obj [("type", .str "object")])])])])
  JVal.obj responses

/-- `buildOperation`: the OpenAPI operation object for one route.
`operationId` prefers the literal handler name over the generated id. -/
def buildOperation (route : RouteInfo) : JVal :=
  let base := [("summary", JVal.str (generateSummary route)),
    ("description", JVal.str (jsOrStrOpt route.description
        (route.method ++ " operation for " ++ route.path))),
    ("operationId", JVal.str
      (if route.handler != "anonymous" && route.handler != "inline function"
       then route.handler else generateOperationId route)),
    ("tags", JVal.arr ((extractTagsFromPath route.path).map .str)),
    ("parameters", JVal.arr (buildParameters route)),
    ("responses", buildResponses route)]
  let bodyParams := route.parameters.filter (·.type == "body")
  if (route.method == "POST" || route.method == "PUT" || route.method == "PATCH")
      && !bodyParams.isEmpty
  then JVal.obj (base ++ [("requestBody", buildRequestBody bodyParams)])
  else JVal.obj base

/-- `groupRoutesByPath`: a `Map` keyed by the OpenAPI-normalized path, in
first-appearance order, each group in encounter order. -/
def addToGroup : List (String × List RouteInfo) → String → RouteInfo → List (String × List RouteInfo)
  | [], p, r => [(p, [r])]
  | (k, rs) :: rest, p, r =>
      if k == p then (k, rs ++ [r]) :: rest else (k, rs) :: addToGroup rest p r

/-- `groupRoutesByPath`. -/
def groupRoutesByPath (routes : List RouteInfo) : List (String × List RouteInfo) :=
  routes.foldl (fun acc r => addToGroup acc (convertPathToOpenAPI r.path) r) []

/-- `buildPathItem`: one operation per method present (later routes with the
same method overwrite). -/
def buildPathItem (routes : List RouteInfo) : JVal :=
  JVal.obj (routes.foldl (fun acc route => setAssoc acc (strToLower route.method) (buildOperation route)) [])

/-- `extractTags`: the tag list derived from the given routes alone — an
insertion-ordered set of the per-path tags (skipping `Default` and
parameter-shaped names), or the single `Default` tag when empty. -/
def extractTagsList (routes : List RouteInfo) : List OpenAPITag :=
  let tagSet := routes.foldl (fun acc route =>
    (extractTagsFromPath route.path).foldl (fun acc tag =>
      if tag != "Default" && !(strStartsWith tag ":") && !(acc.contains tag)
      then acc ++ [tag] else acc) acc) ([] : List String)
  let tagArray := tagSet.map fun tag => OpenAPITag.mk tag (tag ++ " related endpoints")
  if tagArray.isEmpty then [⟨"Default", "Default endpoints"⟩] else tagArray

/-- `addRoutes`: installs one path item per normalized path and then
**replaces** `document.tags` with `extractTags(routes)`. -/
def addRoutes (doc : OpenAPIDoc) (routes : List RouteInfo) : OpenAPIDoc :=
  let grouped := groupRoutesByPath routes
  let doc := { doc with
    paths := grouped.foldl
      (fun ps (kv : String × List RouteInfo) => setAssoc ps kv.1 (buildPathItem kv.2))
      doc.paths }
  { doc with tags := extractTagsList routes }

/-- `addRoute` (the manual fallback): ensure a path item object exists for
the normalized path (respecting the JS falsy check), then assign the
operation under the lowercased method.  A write to a truthy primitive path
item would raise in JS; it is modeled as a no-op and excluded by the
object-shaped hypotheses of the theorems. -/
def addRoute (doc : OpenAPIDoc) (route : RouteInfo) : OpenAPIDoc :=
  let p := convertPathToOpenAPI route.path
  let item : JVal :=
    match List.lookup p doc.paths with
    | some v => if jsTruthy v then v else .obj []
    | none => .obj []
  let item' : JVal :=
    match item with
    | .obj fields => .obj (setAssoc fields (strToLower route.method) (buildOperation route))
    | other => other
  { doc with paths := setAssoc doc.paths p item' }

/-- `extractTagsFromAIDoc`: walk `Object.values(operations)` (throws on a
null/undefined operations value), and for each operation whose `tags`
property is an array, append each unseen tag name to the document tag list.
Tag values are strings per the TS signature; other values are skipped. -/
def extractTagsFromAIDocE (tags : List OpenAPITag) (operations : JVal) :
    Except Unit (List OpenAPITag) :=
  match jsValuesE operations with
  | .error _ => .error ()
  | .ok vals =>
      vals.foldlM (fun acc op =>
        match op with
        | .null => .error ()
        | .undefinedVal => .error ()
        | _ =>
            match jsGet op "tags" with
            | .arr ts => .ok (ts.foldl (fun acc t =>
                match t with
                | .str s =>
                    if (acc.map OpenAPITag.name).contains s then acc
                    else acc ++ [⟨s, s ++ " related endpoints"⟩]
                | _ => acc) acc)
            | _ => .ok acc) tags

/-- `addRouteWithAIDoc`: `parsed` is the outcome of `yaml.load(rawYaml)`
(`error` = the YAML parser threw).  On a successful parse the operations are
merged under the YAML's own first top-level key; any exception inside the
`try` block (including one thrown after the paths were already mutated)
falls back to `addRoute(route)` on the state reached so far. -/
def addRouteWithAIDoc (doc : OpenAPIDoc) (route : RouteInfo)
    (parsed : Except String JVal) : OpenAPIDoc :=
  match parsed with
  | .error _ => addRoute doc route
  | .ok aiDoc =>
      match jsKeysE aiDoc with
      | .error _ => addRoute doc route
      | .ok keys =>
          let pathKey := keys.head?.getD "undefined"
          let operations := jsGet aiDoc pathKey
          let doc1 :=
            if (match List.lookup pathKey doc.paths with
                | some v => jsTruthy v
                | none => false)
            then doc
            else { doc with paths := setAssoc doc.paths pathKey (JVal.obj []) }
          let target := (List.lookup pathKey doc1.paths).getD JVal.undefinedVal
          let doc2 := { doc1 with paths := setAssoc doc1.paths pathKey (objectAssign target operations) }
          match extractTagsFromAIDocE doc2.tags operations with
          | .error _ => addRoute doc2 route
          | .ok tags' => { doc2 with tags := tags' }

/-- `toJSON`, at the level of the JSON object it serializes (field order =
construction order; `JSON.parse(JSON.stringify(v))` is the identity on this
value model, so the round-tripped document is this object). -/
def toJSONval (doc : OpenAPIDoc) : JVal :=
  JVal.obj [("openapi", .str doc.openapi),
    ("info", .obj [("title", .str doc.infoTitle), ("version", .str doc.infoVersion),
                   ("description", .str doc.infoDescription)]),
    ("servers", .arr (doc.servers.map fun s =>
        JVal.obj [("url", .str s.1), ("description", .str s.2)])),
    ("paths", .obj doc.paths),
    ("components", .obj [("schemas", .obj doc.schemas)]),
    ("tags", .arr (doc.tags.map fun t =>
        JVal.obj [("name", .str t.name), ("description", .str t.description)]))]

/-! ## A model of the Babel AST and RouteParser (src/parsers/RouteParser.ts)

The visitor functions of the source (`extractQueryParameters`,
`extractBodyParameters`, `extractResponseInfo`) walk every child of every
node recursively in property order; that generic walk is modeled by an
explicit pre-order worklist traversal with a fuel bound (the fuel is only a
termination device: all general theorems hold for every fuel value, and
concrete evaluations use a fuel larger than the node count). -/

/-- Babel AST nodes, restricted to the shapes the parser inspects.  Object
literals and patterns carry their `ObjectProperty` entries as (key, value)
node pairs. -/
inductive JNode where
  | ident (name : String)
  | strLit (value : String)
  | numLit (value : Int)
  | boolLit (value : Bool)
  | nullLit
  | memberExpr (obj : JNode) (prop : JNode)
  | callExpr (callee : JNode) (args : List JNode)
  | funcExpr (params : List JNode) (body : List JNode)
  | arrowFuncExpr (params : List JNode) (body : List JNode)
  | objectExpr (props : List (JNode × JNode))
  | arrayExpr (elems : List JNode)
  | varDeclarator (id : JNode) (init : JNode)
  | objectPattern (props : List (JNode × JNode))
deriving Repr

/-- The child nodes visited by the generic `for key in node` recursion, in
Babel property order. -/
def childNodes : JNode → List JNode
  | .ident _ => []
  | .strLit _ => []
  | .numLit _ => []
  | .boolLit _ => []
  | .nullLit => []
  | .memberExpr o p => [o, p]
  | .callExpr c args => c :: args
  | .funcExpr ps b => ps ++ b
  | .arrowFuncExpr ps b => ps ++ b
  | .objectExpr props => props.foldr (fun kv acc => kv.1 :: kv.2 :: acc) []
  | .arrayExpr es => es
  | .varDeclarator i init => [i, init]
  | .objectPattern props => props.foldr (fun kv acc => kv.1 :: kv.2 :: acc) []

/-- Pre-order traversal: visit a node (updating the scan state), then its
children, then its siblings.  Matches the source's recursive `visitNode`. -/
def scanNodes {σ : Type} (upd : σ → JNode → σ) : Nat → List JNode → σ → σ
  | 0, _, st => st
  | _ + 1, [], st => st
  | fuel + 1, n :: rest, st => scanNodes upd fuel (childNodes n ++ rest) (upd st n)

/-- Match `base.mid.<name>` (e.g. `req.query.page`). -/
def matchMemberTriple (base mid : String) : JNode → Option String
  | .memberExpr (.memberExpr (.ident b) (.ident m)) (.ident n) =>
      if b == base && m == mid then some n else none
  | _ => none

/-- Per-node update of the `req.query.<name>` scan (first occurrence wins). -/
def queryUpdate (found : List String) (n : JNode) : List String :=
  match matchMemberTriple "req" "query" n with
  | some name => if found.contains name then found else found ++ [name]
  | none => found

/-- `extractQueryParameters`. -/
def extractQueryParameters (fuel : Nat) (handlerNode : JNode) : List RouteParameter :=
  (scanNodes queryUpdate fuel [handlerNode] []).map fun name =>
    { name := name, type := "query", required := false, dataType := "string" }

/-- Per-node update of the body-parameter scan: a destructuring
`const { a, b } = req.body` yields required parameters, a direct
`req.body.<name>` access an optional one; first occurrence wins across both
shapes. -/
def bodyUpdate (found : List (String × Bool)) (n : JNode) : List (String × Bool) :=
  let found :=
    match n with
    | .varDeclarator (.objectPattern props) (.memberExpr (.ident r) (.ident b)) =>
        if r == "req" && b == "body" then
          props.foldl (fun fs kv =>
            match kv.1 with
            | .ident name =>
                if (fs.map Prod.fst).contains name then fs else fs ++ [(name, true)]
            | _ => fs) found
        else found
    | _ => found
  match matchMemberTriple "req" "body" n with
  | some name =>
      if (found.map Prod.fst).contains name then found else found ++ [(name, false)]
  | none => found

/-- `extractBodyParameters`. -/
def extractBodyParameters (fuel : Nat) (handlerNode : JNode) : List RouteParameter :=
  (scanNodes bodyUpdate fuel [handlerNode] []).map fun m =>
    { name := m.1, type := "body", required := m.2, dataType := "string" }

/-- `getStatusDescription`. -/
def getStatusDescription (statusCode : Int) : String :=
  if statusCode == 200 then "Success"
  else if statusCode == 201 then "Created"
  else if statusCode == 204 then "No Content"
  else if statusCode == 400 then "Bad Request"
  else if statusCode == 401 then "Unauthorized"
  else if statusCode == 403 then "Forbidden"
  else if statusCode == 404 then "Not Found"
  else if statusCode == 500 then "Internal Server Error"
  else "Unknown"

/-- Literal-kind type inference for one object-literal property value. -/
def inferLitType : JNode → String
  | .arrayExpr _ => "array"
  | .numLit _ => "number"
  | .strLit _ => "string"
  | .boolLit _ => "boolean"
  | _ => "unknown"

/-- `extractResponseSchema`: best-effort schema from an object or array
literal argument. -/
def extractResponseSchema (arg : Option JNode) : Option JVal :=
  match arg with
  | some (.objectExpr props) =>
      some (.obj [("type", .str "object"),
        ("properties", .obj (props.foldl (fun acc kv =>
          match kv.1 with
          | .ident key => setAssoc acc key (JVal.obj [("type", .str (inferLitType kv.2))])
          | _ => acc) []))])
  | some (.arrayExpr _) => some (.obj [("type", .str "array"), ("items", .obj [("type", .str "object")])])
  | _ => none

/-- contentType chosen from the response method name (`json` and any other
shape default to JSON, `send` to plain text). -/
def respContentType : JNode → String
  | .ident m => if m == "send" then "text/plain" else "application/json"
  | _ => "application/json"

/-- Per-node update of the response scan: `X.status(<int>).m(...)` records
the literal status once (first occurrence wins), and a bare `res.json(...)`
/ `res.send(...)` records a 200. -/
def respUpdate (rs : List RouteResponse) (n : JNode) : List RouteResponse :=
  let rs :=
    match n with
    | .callExpr (.memberExpr (.callExpr (.memberExpr _ (.ident sname)) sargs) rprop) args =>
        if sname == "status" then
          match sargs.head? with
          | some (.numLit code) =>
              if (rs.map RouteResponse.statusCode).contains code then rs
              else rs ++ [{ statusCode := code, description := getStatusDescription code,
                            contentType := some (respContentType rprop),
                            schema := extractResponseSchema args.head? }]
          | _ => rs
        else rs
    | _ => rs
  match n with
  | .callExpr (.memberExpr (.ident o) (.ident m)) args =>
      if o == "res" && (m == "json" || m == "send")
          && !((rs.map RouteResponse.statusCode).contains 200) then
        rs ++ [{ statusCode := 200, description := "Success",
                 contentType := some (if m == "json" then "application/json" else "text/plain"),
                 schema := extractResponseSchema args.head? }]
      else rs
  | _ => rs

/-- The synthesized default response. -/
def defaultResponse : RouteResponse :=
  { statusCode := 200, description := "Success",
    contentType := some "application/json", schema := none }

/-- `extractResponseInfo`: the scan result, or the synthesized 200 when the
scan found nothing. -/
def extractResponseInfo (fuel : Nat) (handlerNode : JNode) : List RouteResponse :=
  let responses := scanNodes respUpdate fuel [handlerNode] []
  if responses.isEmpty then [defaultResponse] else responses

/-- `guessMiddlewareType`. -/
def strIncludesAux (sub : List Char) : List Char → Bool
  | [] => sub.isEmpty
  | c :: cs => sub.isPrefixOf (c :: cs) || strIncludesAux sub cs

/-- `String.prototype.includes`. -/
def strIncludes (s sub : String) : Bool := strIncludesAux sub.data s.data

/-- `guessMiddlewareType`: name-based classification. -/
def guessMiddlewareType (name : String) : String :=
  let lowerName := strToLower name
  if strIncludes lowerName "auth" || strIncludes lowerName "verify" then "auth"
  else if strIncludes lowerName "valid" || strIncludes lowerName "check" then "validation"
  else "custom"

/-- `extractMiddlewares`: identifier arguments between path and handler. -/
def extractMiddlewares (middlewareArgs : List JNode) : List MiddlewareInfo :=
  middlewareArgs.foldl (fun ms a =>
    match a with
    | .ident nm => ms ++ [⟨nm, guessMiddlewareType nm⟩]
    | _ => ms) []

/-- `isValidHttpMethod`. -/
def isValidHttpMethod (method : String) : Bool :=
  ["GET", "POST", "PUT", "DELETE", "PATCH", "OPTIONS", "HEAD"].contains method

/-- The handler-dependent data of `extractRouteInfo`: handler name, query
parameters, body parameters, responses.  A plain identifier contributes its
name and no scan; an inline (arrow or traditional) function is scanned; any
other shape is `"anonymous"`. -/
def handlerParts (fuel : Nat) (handlerArg : Option JNode) :
    String × List RouteParameter × List RouteParameter × List RouteResponse :=
  match handlerArg with
  | some (.ident nm) => (nm, [], [], [])
  | some (h@(.funcExpr _ _)) =>
      ("inline function", extractQueryParameters fuel h,
        extractBodyParameters fuel h, extractResponseInfo fuel h)
  | some (h@(.arrowFuncExpr _ _)) =>
      ("inline function", extractQueryParameters fuel h,
        extractBodyParameters fuel h, extractResponseInfo fuel h)
  | _ => ("anonymous", [], [], [])

/-- `extractRouteInfo`: `none` when the first argument is not a string
literal (the call is skipped, not an error). -/
def extractRouteInfo (fuel : Nat) (node : JNode) (method : String) (filePath : String) :
    Option RouteInfo :=
  match node with
  | .callExpr _ args =>
      match args.head? with
      | some (.strLit routePath) =>
          let hqbr := handlerParts fuel args.getLast?
          some { method := method, path := routePath, handler := hqbr.1,
                 description := none,
                 parameters := extractPathParameters routePath ++ hqbr.2.1 ++ hqbr.2.2.1,
                 responses := if hqbr.2.2.2.isEmpty then [defaultResponse] else hqbr.2.2.2,
                 middlewares := extractMiddlewares ((args.drop 1).dropLast),
                 filePath := filePath, lineNumber := none }
      | _ => none
  | _ => none

/-- The traversal of `parseRoutes`: every call expression whose callee is
`router.<m>` or `app.<m>` with `<m>` (upper-cased) a recognized HTTP method
is a candidate; candidates yielding `some` record are collected in
traversal (= source) order. -/
def collectRoutes (filePath : String) : Nat → List JNode → List RouteInfo → List RouteInfo
  | 0, _, acc => acc
  | _ + 1, [], acc => acc
  | fuel + 1, n :: rest, acc =>
      let acc :=
        match n with
        | .callExpr (.memberExpr (.ident obj) (.ident propName)) _ =>
            if (obj == "router" || obj == "app") && isValidHttpMethod (strToUpper propName) then
              match extractRouteInfo fuel n (strToUpper propName) filePath with
              | some r => acc ++ [r]
              | none => acc
            else acc
        | _ => acc
      collectRoutes filePath fuel (childNodes n ++ rest) acc

/-- `parseRoutes` over the top-level statements of a parsed file. -/
def parseRoutes (fuel : Nat) (program : List JNode) (filePath : String) : List RouteInfo :=
  collectRoutes filePath fuel program []

/-! ## Claim C2: addRouteWithAIDoc -/

/-- A sample route record (`GET /users`), as the parser would produce it. -/
def demoRoute : RouteInfo :=
  { method := "GET", path := "/users", handler := "listUsers", description := none,
    parameters := [], responses := [defaultResponse], middlewares := [],
    filePath := "routes/users.js", lineNumber := none }

/-! ## Claim C10: addRoutes replaces the tag list -/

/-- An AI fragment for `/users` carrying a tags array. -/
def demoFragment : JVal :=
  .obj [("/users", .obj [("get", .obj [("tags", .arr [.str "Custom"])])])]

/-! ## Claim C7: operationId precedence -/

/-- The AST of `router.get('/users/:id', handler)`. -/
def usersGetCall : JNode :=
  .callExpr (.memberExpr (.ident "router") (.ident "get"))
    [.strLit "/users/:id", .ident "handler"]

/-- The route record extracted from `usersGetCall`. -/
def usersGetRecord : RouteInfo :=
  { method := "GET", path := "/users/:id", handler := "handler", description := none,
    parameters := [{ name := "id", type := "path", required := true, dataType := "string" }],
    responses := [defaultResponse], middlewares := [], filePath := "users.ts",
    lineNumber := none }

/-! ## OpenRouterClient (src/services/OpenRouterClient.ts) -/

/-- A failed transport attempt, after axios classification: an HTTP error
response (with status and payload detail), a network failure (request sent,
no response), or a non-axios exception. -/
inductive TransportErr where
  | httpError (status : Nat) (detail : String)
  | networkError
  | otherError (msg : String)
deriving DecidableEq, Repr

/-- `maxRetries`. -/
def maxRetries : Nat := 3

/-- `isRetryableError`: HTTP 429 or any status ≥ 500. -/
def isRetryableError : TransportErr → Bool
  | .httpError status _ => status == 429 || decide (500 ≤ status)
  | _ => false

/-- The recursion of `sendRequestWithRetry`.  `transport k` is the outcome
of the call made with `retryCount = k`; `remaining = maxRetries − retryCount`
carries the guard `retryCount < maxRetries` structurally.  Returns the final
outcome, the number of transport calls made, and the backoff delays (ms)
slept between attempts (`2^retryCount * 1000`). -/
def sendAux (transport : Nat → Except TransportErr String) :
    Nat → Nat → Except TransportErr String × Nat × List Nat
  | _, 0 => (.error (.otherError "unreachable"), 0, [])
  | retryCount, remaining + 1 =>
      match transport retryCount with
      | .ok response => (.ok response, 1, [])
      | .error e =>
          if remaining > 0 && isRetryableError e then
            let rest := sendAux transport (retryCount + 1) remaining
            (rest.1, rest.2.1 + 1, (2 ^ retryCount * 1000) :: rest.2.2)
          else (.error e, 1, [])

/-- `sendRequestWithRetry(payload)` (initial `retryCount = 0`). -/
def sendRequestWithRetry (transport : Nat → Except TransportErr String) :
    Except TransportErr String × Nat × List Nat :=
  sendAux transport 0 (maxRetries + 1)

/-- `handleError`: the stable user-facing message for a transport failure. -/
def handleError : TransportErr → String
  | .httpError status detail =>
      if status == 401 then "Invalid API key. Please check your OpenRouter API key."
      else if status == 429 then "Rate limit exceeded. Please try again later."
      else if status == 500 || status == 502 || status == 503 || status == 504 then
        "OpenRouter server error (" ++ toString status ++ "). Please try again."
      else "API error: " ++ (if detail == "" then "Unknown error" else detail)
  | .networkError => "Network error. Please check your internet connection."
  | .otherError msg => "Unexpected error: " ++ msg

/-! ## ValidationService (src/services/DocumentationService.ts)

`validateDocument` first runs the delegated `openapi-schema-validator`
check (an external collaborator, modeled by the `externalErrors` it
returns), then the custom validations.  Any exception inside the `try`
block is caught: the errors accumulated so far are kept, a
"Validation exception" error is appended, and `isValid` is forced false.
The only modeled exception source is `operation.parameters.forEach` on a
truthy non-array value. -/

/-- `ValidationError`. -/
structure ValidationError where
  message : String
  path : Option String
  keyword : Option String
deriving DecidableEq, Repr

/-- `ValidationWarning`. -/
structure ValidationWarning where
  message : String
  path : Option String
  suggestion : Option String
deriving DecidableEq, Repr

/-- `ValidationResult`. -/
structure ValidationResult where
  isValid : Bool
  errors : List ValidationError
  warnings : List ValidationWarning
deriving DecidableEq, Repr

/-- The input document, restricted to the fields `validateDocument`
inspects (absent = `undefined`). -/
structure ValDoc where
  openapi : Option String
  info : Option (Option String × Option String)
  paths : Option (List (String × JVal))
  tags : Option (List JVal)
  schemas : Option (List (String × JVal))

/-- `result.warnings.push(w)`. -/
def pushWarn (res : ValidationResult) (w : ValidationWarning) : ValidationResult :=
  { res with warnings := res.warnings ++ [w] }

/-- `result.errors.push(e); result.isValid = false`. -/
def pushErr (res : ValidationResult) (e : ValidationError) : ValidationResult :=
  { res with errors := res.errors ++ [e], isValid := false }

/-- The per-parameter checks of `validateOperation` (indexed forEach). -/
def validateParams (operationPath : String) : List JVal → Nat → ValidationResult → ValidationResult
  | [], _, res => res
  | p :: rest, index, res =>
      let res := if !(jsTruthy (jsGet p "name")) then
          pushErr res ⟨"Parameter missing name: " ++ operationPath,
            some ("/paths/" ++ operationPath ++ "/parameters/" ++ toString index), none⟩
        else res
      let res := if !(jsTruthy (jsGet p "in")) then
          pushErr res ⟨"Parameter missing 'in' field: " ++ operationPath,
            some ("/paths/" ++ operationPath ++ "/parameters/" ++ toString index), none⟩
        else res
      let res := if !(jsTruthy (jsGet p "schema")) && !(jsTruthy (jsGet p "content")) then
          pushErr res ⟨"Parameter must have schema or content: " ++ operationPath,
            some ("/paths/" ++ operationPath ++ "/parameters/" ++ toString index), none⟩
        else res
      validateParams operationPath rest (index + 1) res

/-- The summary-or-description warning of `validateOperation`. -/
def vOpSummaryStage (op : JVal) (operationPath : String) (res : ValidationResult) :
    ValidationResult :=
  if !(jsTruthy (jsGet op "summary")) && !(jsTruthy (jsGet op "description")) then
    pushWarn res ⟨"Operation should have summary or description: " ++ operationPath,
      some ("/paths/" ++ operationPath),
      some "Add summary or description to document the endpoint"⟩
  else res

/-- The zero-responses error of `validateOperation`. -/
def vOpResponsesStage (op : JVal) (operationPath : String) (res : ValidationResult) :
    ValidationResult :=
  if !(jsTruthy (jsGet op "responses")) || (jsKeys (jsGet op "responses")).length == 0 then
    pushErr res ⟨"Operation must have at least one response: " ++ operationPath,
      some ("/paths/" ++ operationPath ++ "/responses"), none⟩
  else res

/-- The missing-2xx warning of `validateOperation`. -/
def vOp2xxStage (op : JVal) (operationPath : String) (res : ValidationResult) :
    ValidationResult :=
  if jsTruthy (jsGet op "responses") then
    (if !((jsKeys (jsGet op "responses")).any fun code =>
          strStartsWith code "2" || code == "default") then
      pushWarn res ⟨"Operation should have at least one success response (2xx): "
          ++ operationPath,
        some ("/paths/" ++ operationPath ++ "/responses"), some "Add a 200 or 201 response"⟩
    else res)
  else res

/-- The per-parameter loop of `validateOperation`.  The `error` outcome is
the thrown-exception case (`parameters` truthy but not an array), carrying
the result state at the throw point. -/
def vOpParamsStage (op : JVal) (operationPath : String) (res : ValidationResult) :
    Except ValidationResult ValidationResult :=
  match jsGet op "parameters" with
  | .arr params => .ok (validateParams operationPath params 0 res)
  | v => if jsTruthy v then .error res else .ok res

/-- `validateOperation`: the checks in source order. -/
def validateOperation (op : JVal) (operationPath : String) (res : ValidationResult) :
    Except ValidationResult ValidationResult :=
  vOpParamsStage op operationPath
    (vOp2xxStage op operationPath
      (vOpResponsesStage op operationPath (vOpSummaryStage op operationPath res)))

/-- The seven lowercase method keys probed on each path item. -/
def lowerMethods : List String := ["get", "post", "put", "delete", "patch", "options", "head"]

/-- The per-path-item loop over methods. -/
def validateOps (path : String) (pathItem : JVal) :
    List String → ValidationResult → Except ValidationResult ValidationResult
  | [], res => .ok res
  | m :: ms, res =>
      if jsTruthy (jsGet pathItem m) then
        match validateOperation (jsGet pathItem m) (path ++ "." ++ m) res with
        | .error r => .error r
        | .ok r => validateOps path pathItem ms r
      else validateOps path pathItem ms res

/-- The leading-slash warning for one path key. -/
def vPathStartCheck (path : String) (res : ValidationResult) : ValidationResult :=
  if !(strStartsWith path "/") then
    pushWarn res ⟨"Path should start with /: " ++ path, some ("/paths/" ++ path), none⟩
  else res

/-- `validatePaths`. -/
def validatePaths : List (String × JVal) → ValidationResult → Except ValidationResult ValidationResult
  | [], res => .ok res
  | (path, pathItem) :: rest, res =>
      match validateOps path pathItem lowerMethods (vPathStartCheck path res) with
      | .error r => .error r
      | .ok r => validatePaths rest r

/-- The version-prefix warning stage (`!openapi || !startsWith('3.')`). -/
def vOpenapiStage (d : ValDoc) (res : ValidationResult) : ValidationResult :=
  if !(match d.openapi with
       | some s => (s != "") && strStartsWith s "3."
       | none => false) then
    pushWarn res ⟨"OpenAPI version should be 3.x", some "/openapi", none⟩
  else res

/-- The required-`info` stage. -/
def vInfoStage (d : ValDoc) (res : ValidationResult) : ValidationResult :=
  match d.info with
  | none => pushErr res ⟨"Missing required field: info", some "/info", none⟩
  | some _ => res

/-- The empty-`paths` warning stage (`!paths || keys.length === 0`). -/
def vPathsWarnStage (d : ValDoc) (res : ValidationResult) : ValidationResult :=
  if (match d.paths with
      | some l => l.length == 0
      | none => true) then
    pushWarn res ⟨"No paths defined in the document", some "/paths",
      some "Add at least one API endpoint"⟩
  else res

/-- The `info.title` check. -/
def vInfoTitleCheck (title : Option String) (res : ValidationResult) : ValidationResult :=
  if !(match title with | some t => t != "" | none => false) then
    pushErr res ⟨"Missing required field: info.title", some "/info/title", none⟩
  else res

/-- The `info.version` check. -/
def vInfoVersionCheck (version : Option String) (res : ValidationResult) : ValidationResult :=
  if !(match version with | some v => v != "" | none => false) then
    pushErr res ⟨"Missing required field: info.version", some "/info/version", none⟩
  else res

/-- The `info.title` / `info.version` stage (only when `info` is present). -/
def vInfoFieldsStage (d : ValDoc) (res : ValidationResult) : ValidationResult :=
  match d.info with
  | some (title, version) => vInfoVersionCheck version (vInfoTitleCheck title res)
  | none => res

/-- The `validatePaths` run (only when `paths` is present). -/
def vPathsRunStage (d : ValDoc) (res : ValidationResult) :
    Except ValidationResult ValidationResult :=
  match d.paths with
  | some l => validatePaths l res
  | none => .ok res

/-- The empty-`tags` check. -/
def vTagsCheck (ts : List JVal) (res : ValidationResult) : ValidationResult :=
  if ts.length == 0 then
    pushWarn res ⟨"Tags array is empty", some "/tags",
      some "Add tags to organize your API endpoints"⟩
  else res

/-- The empty-`tags` warning stage. -/
def vTagsStage (d : ValDoc) (res : ValidationResult) : ValidationResult :=
  match d.tags with
  | some ts => vTagsCheck ts res
  | none => res

/-- The empty-`components.schemas` check. -/
def vSchemasCheck (ss : List (String × JVal)) (res : ValidationResult) : ValidationResult :=
  if ss.length == 0 then
    pushWarn res ⟨"No reusable schemas defined in components", some "/components/schemas",
      some "Consider extracting common schemas to components for reusability"⟩
  else res

/-- The empty-`components.schemas` warning stage. -/
def vSchemasStage (d : ValDoc) (res : ValidationResult) : ValidationResult :=
  match d.schemas with
  | some ss => vSchemasCheck ss res
  | none => res

/-- `performCustomValidations`: the stages in source order. -/
def performCustomValidations (d : ValDoc) (res : ValidationResult) :
    Except ValidationResult ValidationResult :=
  match vPathsRunStage d
      (vInfoFieldsStage d (vPathsWarnStage d (vInfoStage d (vOpenapiStage d res)))) with
  | .error r => .error r
  | .ok r => .ok (vSchemasStage d (vTagsStage d r))

/-- The initial result after installing the delegated schema validator's
errors (`validateDocument` is parametrized by that error list; the
delegate returned normally).  Errors and warnings are the returned
`ValidationResult`; nothing is thrown to the caller. -/
def vInitRes (externalErrors : List ValidationError) : ValidationResult :=
  if externalErrors.length > 0 then
    { isValid := false, errors := externalErrors, warnings := [] }
  else { isValid := true, errors := [], warnings := [] }

/-- `validateDocument` (see section comment). -/
def validateDocument (d : ValDoc) (externalErrors : List ValidationError) : ValidationResult :=
  match performCustomValidations d (vInitRes externalErrors) with
  | .ok r => r
  | .error r =>
      { r with isValid := false,
               errors := r.errors ++ [⟨"Validation exception: TypeError", none, none⟩] }

/-! ### Monotonicity of the validation pipeline -/

/-- The result state only grows: errors and warnings are appended, and a
false `isValid` is never reset. -/
def ResultExt (r1 r2 : ValidationResult) : Prop :=
  (∃ es, r2.errors = r1.errors ++ es) ∧ (∃ ws, r2.warnings = r1.warnings ++ ws)
  ∧ (r1.isValid = false → r2.isValid = false)

/-- The result a throwing or returning run ends with. -/
def exceptResult (e : Except ValidationResult ValidationResult) : ValidationResult :=
  match e with
  | .ok r => r
  | .error r => r

/-! ## Theorems -/

/-! ### Scanner lemmas -/

lemma scanParams_plain_cons {c : Char} (rest : List Char) (h : (c == ':') = false) :
    scanParams .plain (c :: rest) = scanParams .plain rest := by
  simp [scanParams, h]

lemma scanParams_plain_append_noColon (l r : List Char) (h : l.all (· != ':') = true) :
    scanParams .plain (l ++ r) = scanParams .plain r := by
  induction l with
  | nil => rfl
  | cons c l ih =>
      simp only [List.all_cons, Bool.and_eq_true] at h
      rw [List.cons_append, scanParams_plain_cons _ (by simpa using h.1), ih h.2]

lemma scanParams_ident_append (cs : List Char) (acc : List Char) (r : List Char)
    (h : cs.all isIdentChar = true) :
    scanParams (.identAcc acc) (cs ++ r) = scanParams (.identAcc (cs.reverse ++ acc)) r := by
  induction cs generalizing acc with
  | nil => rfl
  | cons c cs ih =>
      simp only [List.all_cons, Bool.and_eq_true] at h
      rw [List.cons_append]
      show scanParams (.identAcc acc) (c :: (cs ++ r)) = _
      rw [show scanParams (.identAcc acc) (c :: (cs ++ r))
            = scanParams (.identAcc (c :: acc)) (cs ++ r) by simp [scanParams, h.1]]
      rw [ih _ h.2]
      simp

/-- After a full parameter token, the scanner emits the captured name and
continues in `plain` state, provided the remainder is empty or starts with
a separator `/`. -/
lemma scanParams_param_step (n : List Char) (opt : Bool) (r : List Char)
    (hn : validIdent n = true)
    (hr : r = [] ∨ ∃ r', r = '/' :: r') :
    scanParams .afterColon (n ++ (if opt then ['?'] else []) ++ r)
      = (String.mk n, opt) :: scanParams .plain r := by
  match n, hn with
  | c :: cs, hn =>
    simp only [validIdent, Bool.and_eq_true] at hn
    have h1 : scanParams .afterColon ((c :: cs) ++ (if opt then ['?'] else []) ++ r)
        = scanParams (.identAcc [c]) (cs ++ ((if opt then ['?'] else []) ++ r)) := by
      simp [scanParams, hn.1]
    rw [h1, scanParams_ident_append cs [c] _ hn.2]
    cases opt with
    | true =>
        have : scanParams (.identAcc (cs.reverse ++ [c])) ('?' :: r)
            = (String.mk (cs.reverse ++ [c]).reverse, true) :: scanParams .plain r := by
          simp [scanParams, isIdentChar, isIdentStart]
        simpa using this
    | false =>
        rcases hr with rfl | ⟨r', rfl⟩
        · simp [scanParams]
        · have : scanParams (.identAcc (cs.reverse ++ [c])) ('/' :: r')
              = (String.mk (cs.reverse ++ [c]).reverse, false) :: scanParams .plain ('/' :: r') := by
            simp [scanParams, isIdentChar, isIdentStart]
          simpa using this

lemma scanParams_renderTail (segs : List PathSeg) (h : ∀ s ∈ segs, segWF s = true) :
    scanParams .plain ((segs.map fun s => '/' :: renderSeg s).flatten)
      = segs.filterMap segTok := by
  induction segs with
  | nil => rfl
  | cons s segs ih =>
      have hs : segWF s = true := h s (by simp)
      have hrest : ∀ t ∈ segs, segWF t = true := fun t ht => h t (by simp [ht])
      have hhead : ((s :: segs).map fun s => '/' :: renderSeg s).flatten
          = '/' :: (renderSeg s ++ (segs.map fun s => '/' :: renderSeg s).flatten) := by
        simp
      rw [hhead, scanParams_plain_cons _ (by decide)]
      cases s with
      | lit str =>
          rw [show renderSeg (.lit str) = str.data from rfl,
            scanParams_plain_append_noColon _ _ hs, ih hrest]
          simp [segTok]
      | param n opt =>
          have hshape : (segs.map fun s => '/' :: renderSeg s).flatten = []
              ∨ ∃ r', (segs.map fun s => '/' :: renderSeg s).flatten = '/' :: r' := by
            cases segs with
            | nil => exact Or.inl rfl
            | cons t ts =>
                exact Or.inr ⟨renderSeg t ++ (ts.map fun s => '/' :: renderSeg s).flatten, by simp⟩
          have : renderSeg (.param n opt) ++ (segs.map fun s => '/' :: renderSeg s).flatten
              = ':' :: (n.data ++ (if opt then ['?'] else [])
                  ++ (segs.map fun s => '/' :: renderSeg s).flatten) := by
            simp [renderSeg]
          rw [this]
          rw [show scanParams .plain (':' :: (n.data ++ (if opt then ['?'] else [])
                ++ (segs.map fun s => '/' :: renderSeg s).flatten))
              = scanParams .afterColon (n.data ++ (if opt then ['?'] else [])
                ++ (segs.map fun s => '/' :: renderSeg s).flatten) by simp [scanParams]]
          rw [scanParams_param_step n.data opt _ hs hshape, ih hrest]
          simp [segTok]

/-- **C1 (amended).** On any well-formed path, `extractPathParameters`
yields one `ParameterRecord` per **occurrence** of a `:name` / `:name?`
token, in left-to-right order (duplicate names included, one entry each),
with `type = "path"`, `dataType = "string"`, and `required = false` iff the
occurrence ends in `?`. -/
theorem extractPathParameters_spec (segs : List PathSeg) (h : ∀ s ∈ segs, segWF s = true) :
    extractPathParameters (renderPath segs) = segs.filterMap segParam := by
  unfold extractPathParameters renderPath
  rw [show (String.mk ((segs.map fun s => '/' :: renderSeg s).flatten)).data
      = (segs.map fun s => '/' :: renderSeg s).flatten from rfl]
  rw [scanParams_renderTail segs h]
  clear h
  induction segs with
  | nil => rfl
  | cons s segs ih =>
      cases s with
      | lit str => simpa [segTok, segParam] using ih
      | param n opt =>
          simp only [segTok, segParam, List.filterMap_cons, List.map_cons]
          rw [ih]

/-- Witness for `extractPathParameters_spec` at `/users/:id/:slug?`. -/
theorem extractPathParameters_spec_witness :
    extractPathParameters
        (renderPath [PathSeg.lit "users", PathSeg.param "id" false, PathSeg.param "slug" true])
      = [{ name := "id", type := "path", required := true, dataType := "string" },
         { name := "slug", type := "path", required := false, dataType := "string" }] := by
  rw [extractPathParameters_spec _ (by decide)]
  rfl

/-- **C1 (counterexample).** The claim says duplicate occurrences of the
same name are deduplicated (one record per *distinct* name).  The code does
not deduplicate: `/:id/:id` has one distinct name but yields two records. -/
theorem extractPathParameters_no_dedup :
    (extractPathParameters "/:id/:id").map RouteParameter.name = ["id", "id"] ∧
    (extractPathParameters "/:id/:id").length ≠ 1 := by
  constructor
  · rfl
  · decide

/-! ### Trimming lemmas -/

lemma dropWhile_of_dropWhile_rdropWhile {p : Char → Bool} {l : List Char}
    (h : l.dropWhile p = l) :
    (List.rdropWhile p l).dropWhile p = List.rdropWhile p l := by
  obtain ⟨t, ht⟩ := List.rdropWhile_prefix p l
  cases hr : List.rdropWhile p l with
  | nil => simp
  | cons a as =>
      rw [hr] at ht
      have hla : l = a :: (as ++ t) := by rw [← ht]; rfl
      have hpa : p a = false := by
        cases hpa' : p a with
        | false => rfl
        | true =>
            exfalso
            rw [hla, List.dropWhile_cons, if_pos hpa'] at h
            have h2 := List.Sublist.length_le (List.dropWhile_sublist (p := p) (l := as ++ t))
            rw [h] at h2
            simp only [List.length_cons] at h2
            omega
      simp [List.dropWhile_cons, hpa]

lemma jsTrim_idem (l : List Char) : jsTrim (jsTrim l) = jsTrim l := by
  unfold jsTrim
  rw [dropWhile_of_dropWhile_rdropWhile (List.dropWhile_idempotent _ _),
    List.rdropWhile_idempotent]

lemma jsTrim_extractYAMLChars (r : List Char) :
    jsTrim (extractYAMLChars r) = extractYAMLChars r := by
  unfold extractYAMLChars
  exact jsTrim_idem _

lemma rdropWhile_of_jsTrim {l : List Char} (h : jsTrim l = l) :
    List.rdropWhile isJsWs l = l := by
  conv_lhs => rw [← h]
  conv_rhs => rw [← h]
  unfold jsTrim
  rw [List.rdropWhile_idempotent]

/-! ### The fence-stripping steps are the identity on clean input -/

lemma eq_backtick_of_ciEq {c : Char} (h : ciEq backtickChar c = true) : c = backtickChar := by
  unfold ciEq at h
  have h96 : lowerCode (backtickChar.toNat) = 96 := by decide
  rw [h96, beq_iff_eq] at h
  unfold lowerCode at h
  split at h
  · omega
  · have : c.toNat = 96 := h.symm
    have hv : c = Char.ofNat c.toNat := by
      rw [Char.ofNat_toNat]
    rw [hv, this]
    rfl

lemma matchPrefixCI_fence_none {m y : List Char}
    (h : ([backtickChar, backtickChar, backtickChar].isPrefixOf y) = false) :
    matchPrefixCI (backtickChar :: backtickChar :: backtickChar :: m) y = none := by
  cases y with
  | nil => rfl
  | cons c1 y1 =>
      cases hc1 : ciEq backtickChar c1 with
      | false => simp [matchPrefixCI, hc1]
      | true =>
          obtain rfl := eq_backtick_of_ciEq hc1
          cases y1 with
          | nil => simp [matchPrefixCI, hc1]
          | cons c2 y2 =>
              cases hc2 : ciEq backtickChar c2 with
              | false => simp [matchPrefixCI, hc1, hc2]
              | true =>
                  obtain rfl := eq_backtick_of_ciEq hc2
                  cases y2 with
                  | nil => simp [matchPrefixCI, hc1, hc2]
                  | cons c3 y3 =>
                      cases hc3 : ciEq backtickChar c3 with
                      | false => simp [matchPrefixCI, hc1, hc2, hc3]
                      | true =>
                          obtain rfl := eq_backtick_of_ciEq hc3
                          exfalso
                          simp [List.isPrefixOf] at h

lemma replaceFencePrefix_id {m y : List Char}
    (h : ([backtickChar, backtickChar, backtickChar].isPrefixOf y) = false) :
    replaceFencePrefix m y = y := by
  unfold replaceFencePrefix
  rw [matchPrefixCI_fence_none h]

lemma replaceFenceSuffix_id {y : List Char} (ht : jsTrim y = y)
    (h : ([backtickChar, backtickChar, backtickChar].isSuffixOf y) = false) :
    replaceFenceSuffix y = y := by
  unfold replaceFenceSuffix
  rw [rdropWhile_of_jsTrim ht]
  simp [h]

/-- **C5 (counterexample).** `extractYAML` is not idempotent on every
input: each `replace` strips at most one fence marker, so an input opening
with two fence markers back to back needs two passes. -/
theorem extractYAML_not_idempotent :
    extractYAML "``````foo" = "```foo" ∧
    extractYAML (extractYAML "``````foo") ≠ extractYAML "``````foo" := by
  constructor
  · rfl
  · decide

/-- **C5 (amended).** `extractYAML` is idempotent on every input whose
first pass produces clean output: whenever `extractYAML x` neither starts
nor ends with a triple-backtick fence (in particular on already-clean
input, where the pass is a no-op up to trimming),
`extractYAML (extractYAML x) = extractYAML x`. -/
theorem extractYAML_idempotent_on_clean (x : String)
    (h1 : ([backtickChar, backtickChar, backtickChar].isPrefixOf (extractYAML x).data) = false)
    (h2 : ([backtickChar, backtickChar, backtickChar].isSuffixOf (extractYAML x).data) = false) :
    extractYAML (extractYAML x) = extractYAML x := by
  show String.mk (extractYAMLChars (extractYAML x).data) = extractYAML x
  have hy : (extractYAML x).data = extractYAMLChars x.data := rfl
  have ht : jsTrim (extractYAML x).data = (extractYAML x).data := by
    rw [hy]; exact jsTrim_extractYAMLChars _
  have hbody : extractYAMLChars (extractYAML x).data = (extractYAML x).data := by
    show jsTrim (replaceFenceSuffix (replaceFencePrefix []
        (replaceFencePrefix ['y', 'm', 'l'] (replaceFencePrefix ['y', 'a', 'm', 'l']
          (jsTrim (extractYAML x).data))))) = (extractYAML x).data
    rw [ht, replaceFencePrefix_id h1, replaceFencePrefix_id h1, replaceFencePrefix_id h1,
      replaceFenceSuffix_id ht h2, ht]
  rw [hbody]

/-- Witness for `extractYAML_idempotent_on_clean` at a fenced input. -/
theorem extractYAML_idempotent_on_clean_witness :
    ([backtickChar, backtickChar, backtickChar].isPrefixOf
        (extractYAML "```yaml\nsummary: ok\n```").data) = false ∧
    ([backtickChar, backtickChar, backtickChar].isSuffixOf
        (extractYAML "```yaml\nsummary: ok\n```").data) = false ∧
    extractYAML (extractYAML "```yaml\nsummary: ok\n```")
      = extractYAML "```yaml\nsummary: ok\n```" :=
  ⟨by decide, by decide,
    extractYAML_idempotent_on_clean "```yaml\nsummary: ok\n```" (by decide) (by decide)⟩

/-! ## Association-list lemmas -/

lemma beq_false_of_ne' {a b : String} (h : ¬a = b) : (a == b) = false := by
  cases hb : a == b with
  | false => rfl
  | true => exact absurd (by simpa using hb) h

lemma lookup_setAssoc {α : Type} (l : List (String × α)) (k k' : String) (v : α) :
    List.lookup k' (setAssoc l k v) = if k' = k then some v else List.lookup k' l := by
  induction l with
  | nil =>
      by_cases h : k' = k
      · subst h; simp [setAssoc, List.lookup]
      · simp [setAssoc, List.lookup, h, beq_false_of_ne' h]
  | cons kv rest ih =>
      obtain ⟨a, b⟩ := kv
      by_cases hak : a = k
      · subst hak
        by_cases h : k' = a
        · subst h; simp [setAssoc, List.lookup]
        · simp [setAssoc, List.lookup, h, beq_false_of_ne' h]
      · by_cases h : k' = a
        · subst h
          simp [setAssoc, List.lookup, beq_false_of_ne' hak, hak]
        · simp [setAssoc, List.lookup, beq_false_of_ne' hak, beq_false_of_ne' h, h, ih]

lemma lookup_setAssoc_self {α : Type} (l : List (String × α)) (k : String) (v : α) :
    List.lookup k (setAssoc l k v) = some v := by
  simp [lookup_setAssoc]

lemma lookup_mem {α : Type} {l : List (String × α)} {k : String} {v : α}
    (h : List.lookup k l = some v) : (k, v) ∈ l := by
  induction l with
  | nil => simp [List.lookup] at h
  | cons kv rest ih =>
      obtain ⟨a, b⟩ := kv
      by_cases hka : k = a
      · subst hka
        simp [List.lookup] at h
        simp [h]
      · simp [List.lookup, beq_false_of_ne' hka] at h
        simp [ih h]

/-- **C2 (counterexample).** The claim says every `rawYaml` leaves the
record's own path/method present.  A fragment that parses successfully but
describes a different path is merged under the YAML's top-level key, no
exception is thrown, so the fallback never runs and the record's own path is
absent from the document. -/
theorem addRouteWithAIDoc_mismatch_loses_route :
    List.lookup "/users"
        (addRouteWithAIDoc initialDocument demoRoute
          (.ok (.obj [("/other", .obj [("get", .obj [])])]))).paths = none
    ∧ (List.lookup "/other"
        (addRouteWithAIDoc initialDocument demoRoute
          (.ok (.obj [("/other", .obj [("get", .obj [])])]))).paths).isSome = true :=
  ⟨rfl, rfl⟩

/-- **C2 (amended).** When parsing the fragment throws (as the malformed
`"{{{invalid"` does in js-yaml), `addRouteWithAIDoc` falls back to the
manual `addRoute`, so the record's normalized path is present and its
path item carries the operation under the lowercased method — provided the
document's existing path items are objects (which everything built by this
generator satisfies).  A successfully parsed fragment is instead merged
under the YAML's own top-level key, which need not be the record's path. -/
theorem addRouteWithAIDoc_fallback_on_parse_error
    (doc : OpenAPIDoc) (route : RouteInfo) (e : String)
    (hobj : ∀ kv ∈ doc.paths, ∃ fields, kv.2 = JVal.obj fields) :
    ∃ fields,
      List.lookup (convertPathToOpenAPI route.path)
          (addRouteWithAIDoc doc route (.error e)).paths = some (JVal.obj fields)
      ∧ List.lookup (strToLower route.method) fields = some (buildOperation route) := by
  show ∃ fields,
      List.lookup (convertPathToOpenAPI route.path) (addRoute doc route).paths
        = some (JVal.obj fields)
      ∧ List.lookup (strToLower route.method) fields = some (buildOperation route)
  unfold addRoute
  cases hcur : List.lookup (convertPathToOpenAPI route.path) doc.paths with
  | none =>
      refine ⟨setAssoc [] (strToLower route.method) (buildOperation route), ?_, ?_⟩
      · simp only [hcur]
        exact lookup_setAssoc_self _ _ _
      · exact lookup_setAssoc_self _ _ _
  | some v =>
      obtain ⟨fields0, rfl⟩ := hobj _ (lookup_mem hcur)
      refine ⟨setAssoc fields0 (strToLower route.method) (buildOperation route), ?_, ?_⟩
      · simp only [hcur, jsTruthy]
        exact lookup_setAssoc_self _ _ _
      · exact lookup_setAssoc_self _ _ _

/-- Witness for `addRouteWithAIDoc_fallback_on_parse_error`: the scenario of
the claim — a malformed fragment (whose parse raises) for a known route
still leaves the route present. -/
theorem addRouteWithAIDoc_fallback_witness :
    ∃ fields,
      List.lookup (convertPathToOpenAPI demoRoute.path)
          (addRouteWithAIDoc initialDocument demoRoute
            (.error "unexpected end of the stream within a flow collection")).paths
        = some (JVal.obj fields)
      ∧ List.lookup (strToLower demoRoute.method) fields = some (buildOperation demoRoute) :=
  addRouteWithAIDoc_fallback_on_parse_error initialDocument demoRoute
    "unexpected end of the stream within a flow collection" (by simp [initialDocument])

lemma extractTagsList_default (routes : List RouteInfo)
    (h : ∀ r ∈ routes, extractTagsFromPath r.path = ["Default"]) :
    extractTagsList routes = [⟨"Default", "Default endpoints"⟩] := by
  have hfold : ∀ (rs : List RouteInfo) (acc : List String),
      (∀ r ∈ rs, extractTagsFromPath r.path = ["Default"]) →
      rs.foldl (fun acc route =>
        (extractTagsFromPath route.path).foldl (fun acc tag =>
          if tag != "Default" && !(strStartsWith tag ":") && !(acc.contains tag)
          then acc ++ [tag] else acc) acc) acc = acc := by
    intro rs
    induction rs with
    | nil => intro acc _; rfl
    | cons r rs ih =>
        intro acc hall
        rw [List.foldl_cons, hall r (by simp)]
        exact ih _ (fun t ht => hall t (by simp [ht]))
  unfold extractTagsList
  rw [hfold routes [] h]
  rfl

/-- **C10.** `addRoutes` overwrites the document's entire `tags` list with
the tag set derived from its argument records alone (so it depends only on
the records, not on the previous document state); when nothing qualifies
the single Default tag is installed; and concretely, a tag previously
collected from an AI fragment by `addRouteWithAIDoc` is discarded by a
subsequent `addRoutes` call. -/
theorem addRoutes_replaces_tags :
    (∀ (doc : OpenAPIDoc) (routes : List RouteInfo),
        (addRoutes doc routes).tags = extractTagsList routes)
    ∧ (∀ routes : List RouteInfo,
        (∀ r ∈ routes, extractTagsFromPath r.path = ["Default"]) →
        extractTagsList routes = [⟨"Default", "Default endpoints"⟩])
    ∧ ((addRouteWithAIDoc initialDocument demoRoute (.ok demoFragment)).tags
          = [⟨"Custom", "Custom related endpoints"⟩]
        ∧ (addRoutes (addRouteWithAIDoc initialDocument demoRoute (.ok demoFragment))
            [demoRoute]).tags = [⟨"Users", "Users related endpoints"⟩]) :=
  ⟨fun _ _ => rfl, extractTagsList_default, by decide, by decide⟩

/-- Witness for `addRoutes_replaces_tags` (its second conjunct carries a
hypothesis): a root-path route derives no tag, so the Default tag results. -/
theorem addRoutes_replaces_tags_witness :
    extractTagsList [{ demoRoute with path := "/" }] = [⟨"Default", "Default endpoints"⟩] :=
  addRoutes_replaces_tags.2.1 [{ demoRoute with path := "/" }]
    (by intro r hr; simp at hr; rw [hr]; decide)

/-! ## Claim C6: toJSON round-trip -/

lemma lookup_addToGroup_self (l : List (String × List RouteInfo)) (p : String) (r : RouteInfo) :
    (List.lookup p (addToGroup l p r)).isSome = true := by
  induction l with
  | nil => simp [addToGroup, List.lookup]
  | cons kv rest ih =>
      obtain ⟨a, b⟩ := kv
      by_cases hap : a = p
      · subst hap; simp [addToGroup, List.lookup]
      · simp [addToGroup, List.lookup, beq_false_of_ne' hap, beq_false_of_ne' (Ne.symm hap), ih]

lemma lookup_cons_ne {α : Type} (a : String) (b : α) (rest : List (String × α)) {q : String}
    (h : ¬q = a) : List.lookup q ((a, b) :: rest) = List.lookup q rest := by
  simp [List.lookup, beq_false_of_ne' h]

lemma lookup_cons_self {α : Type} (a : String) (b : α) (rest : List (String × α)) :
    List.lookup a ((a, b) :: rest) = some b := by
  simp [List.lookup]

lemma lookup_addToGroup_mono (l : List (String × List RouteInfo)) (p q : String) (r : RouteInfo)
    (h : (List.lookup q l).isSome = true) :
    (List.lookup q (addToGroup l p r)).isSome = true := by
  induction l with
  | nil => simp [List.lookup] at h
  | cons kv rest ih =>
      obtain ⟨a, b⟩ := kv
      by_cases hap : a = p
      · subst hap
        by_cases hqa : q = a
        · subst hqa
          simp [addToGroup, lookup_cons_self]
        · rw [lookup_cons_ne a b rest hqa] at h
          have hred : addToGroup ((a, b) :: rest) a r = (a, b ++ [r]) :: rest := by
            simp [addToGroup]
          rw [hred, lookup_cons_ne a _ rest hqa]
          exact h
      · by_cases hqa : q = a
        · subst hqa
          have hred : addToGroup ((q, b) :: rest) p r = (q, b) :: addToGroup rest p r := by
            simp [addToGroup, beq_false_of_ne' hap]
          rw [hred, lookup_cons_self]
          rfl
        · rw [lookup_cons_ne a b rest hqa] at h
          have hred : addToGroup ((a, b) :: rest) p r = (a, b) :: addToGroup rest p r := by
            simp [addToGroup, beq_false_of_ne' hap]
          rw [hred, lookup_cons_ne a b _ hqa]
          exact ih h

lemma lookup_groupRoutesByPath (rs : List RouteInfo) (p : String)
    (h : ∃ r ∈ rs, convertPathToOpenAPI r.path = p) :
    (List.lookup p (groupRoutesByPath rs)).isSome = true := by
  have key : ∀ (rs : List RouteInfo) (acc : List (String × List RouteInfo)),
      ((List.lookup p acc).isSome = true ∨ ∃ r ∈ rs, convertPathToOpenAPI r.path = p) →
      (List.lookup p (rs.foldl (fun acc r => addToGroup acc (convertPathToOpenAPI r.path) r) acc)).isSome = true := by
    intro rs
    induction rs with
    | nil =>
        intro acc h
        rcases h with h | ⟨r, hr, _⟩
        · exact h
        · exact absurd hr (List.not_mem_nil r)
    | cons r rs ih =>
        intro acc h
        rw [List.foldl_cons]
        rcases h with h | ⟨t, ht, hp⟩
        · exact ih _ (Or.inl (lookup_addToGroup_mono _ _ _ _ h))
        · rcases List.mem_cons.mp ht with rfl | ht'
          · exact ih _ (Or.inl (by rw [hp] at *; exact lookup_addToGroup_self _ _ _))
          · exact ih _ (Or.inr ⟨t, ht', hp⟩)
  exact key rs [] (Or.inr h)

lemma lookup_pathsFold_mono (grouped : List (String × List RouteInfo))
    (ps : List (String × JVal)) (p : String)
    (h : (List.lookup p ps).isSome = true) :
    (List.lookup p (grouped.foldl
      (fun ps (kv : String × List RouteInfo) => setAssoc ps kv.1 (buildPathItem kv.2)) ps)).isSome
      = true := by
  induction grouped generalizing ps with
  | nil => exact h
  | cons kv rest ih =>
      rw [List.foldl_cons]
      refine ih _ ?_
      rw [lookup_setAssoc]
      split
      · rfl
      · exact h

lemma lookup_pathsFold_of_grouped (grouped : List (String × List RouteInfo))
    (ps : List (String × JVal)) (p : String)
    (h : (List.lookup p grouped).isSome = true) :
    (List.lookup p (grouped.foldl
      (fun ps (kv : String × List RouteInfo) => setAssoc ps kv.1 (buildPathItem kv.2)) ps)).isSome
      = true := by
  induction grouped generalizing ps with
  | nil => simp [List.lookup] at h
  | cons kv rest ih =>
      obtain ⟨a, b⟩ := kv
      by_cases hpa : p = a
      · subst hpa
        rw [List.foldl_cons]
        exact lookup_pathsFold_mono _ _ _ (by rw [lookup_setAssoc]; simp)
      · rw [lookup_cons_ne a b rest hpa] at h
        rw [List.foldl_cons]
        exact ih _ h

lemma addRoutes_lookup_isSome (doc : OpenAPIDoc) (rs : List RouteInfo) (p : String)
    (h : (List.lookup p doc.paths).isSome = true ∨ ∃ r ∈ rs, convertPathToOpenAPI r.path = p) :
    (List.lookup p (addRoutes doc rs).paths).isSome = true := by
  show (List.lookup p ((groupRoutesByPath rs).foldl
      (fun ps (kv : String × List RouteInfo) => setAssoc ps kv.1 (buildPathItem kv.2))
      doc.paths)).isSome = true
  rcases h with h | h
  · exact lookup_pathsFold_mono _ _ _ h
  · exact lookup_pathsFold_of_grouped _ _ _ (lookup_groupRoutesByPath rs p h)

lemma foldl_addRoutes_openapi (batches : List (List RouteInfo)) (doc : OpenAPIDoc) :
    (batches.foldl addRoutes doc).openapi = doc.openapi := by
  induction batches generalizing doc with
  | nil => rfl
  | cons rs batches ih => rw [List.foldl_cons, ih]; rfl

lemma foldl_addRoutes_lookup (batches : List (List RouteInfo)) (doc : OpenAPIDoc) (p : String)
    (h : (List.lookup p doc.paths).isSome = true
      ∨ ∃ rs ∈ batches, ∃ r ∈ rs, convertPathToOpenAPI r.path = p) :
    (List.lookup p ((batches.foldl addRoutes doc)).paths).isSome = true := by
  induction batches generalizing doc with
  | nil =>
      rcases h with h | ⟨rs, hrs, _⟩
      · exact h
      · exact absurd hrs (List.not_mem_nil rs)
  | cons rs batches ih =>
      rw [List.foldl_cons]
      rcases h with h | ⟨ts, hts, r, hr, hp⟩
      · exact ih _ (Or.inl (addRoutes_lookup_isSome _ _ _ (Or.inl h)))
      · rcases List.mem_cons.mp hts with rfl | hts'
        · exact ih _ (Or.inl (addRoutes_lookup_isSome _ _ _ (Or.inr ⟨r, hr, hp⟩)))
        · exact ih _ (Or.inr ⟨ts, hts', r, hr, hp⟩)

/-- **C6.** For any sequence of `addRoutes` calls starting from the
constructor document, the serialized JSON object (to which
`JSON.parse ∘ toJSON` round-trips on this value model) has
`openapi = "3.1.0"`, and its `paths` object contains an entry for the
OpenAPI-normalized path of every route that was added. -/
theorem toJSON_roundtrip (batches : List (List RouteInfo)) :
    jvalLookup (toJSONval (batches.foldl addRoutes initialDocument)) "openapi"
      = some (JVal.str "3.1.0")
    ∧ ∀ rs ∈ batches, ∀ r ∈ rs,
        ∃ item,
          jvalLookup (jsGet (toJSONval (batches.foldl addRoutes initialDocument)) "paths")
            (convertPathToOpenAPI r.path) = some item := by
  constructor
  · have h1 : jvalLookup (toJSONval (batches.foldl addRoutes initialDocument)) "openapi"
        = some (JVal.str (batches.foldl addRoutes initialDocument).openapi) := rfl
    rw [h1, foldl_addRoutes_openapi]
    rfl
  · intro rs hrs r hr
    have h2 : jsGet (toJSONval (batches.foldl addRoutes initialDocument)) "paths"
        = JVal.obj (batches.foldl addRoutes initialDocument).paths := rfl
    rw [h2]
    have h3 := foldl_addRoutes_lookup batches initialDocument (convertPathToOpenAPI r.path)
      (Or.inr ⟨rs, hrs, r, hr, rfl⟩)
    obtain ⟨item, hitem⟩ := Option.isSome_iff_exists.mp h3
    exact ⟨item, hitem⟩

/-- Witness for `toJSON_roundtrip` at a two-batch run. -/
theorem toJSON_roundtrip_witness :
    jvalLookup (toJSONval ([[demoRoute]].foldl addRoutes initialDocument)) "openapi"
      = some (JVal.str "3.1.0")
    ∧ ∃ item,
        jvalLookup (jsGet (toJSONval ([[demoRoute]].foldl addRoutes initialDocument)) "paths")
          (convertPathToOpenAPI demoRoute.path) = some item :=
  ⟨(toJSON_roundtrip [[demoRoute]]).1,
    (toJSON_roundtrip [[demoRoute]]).2 [demoRoute] (by simp) demoRoute (by simp)⟩

/-- **C7.** In every synthesized operation, `operationId` is the record's
handler name whenever that name is neither `"anonymous"` nor
`"inline function"`; otherwise it is the generated
`<method><Resource>` id with `ById` appended iff the path contains `:`.
Concretely, `router.get('/users/:id', handler)` extracts to a record with
handler `"handler"` and required path parameter `id`, and after `addRoutes`
the operation at `/users/{id}`/`get` has `operationId = "handler"` (the
literal identifier, not the generated `getUsersById`). -/
theorem operationId_precedence :
    (∀ route : RouteInfo, route.handler ≠ "anonymous" → route.handler ≠ "inline function" →
      jvalLookup (buildOperation route) "operationId" = some (.str route.handler))
    ∧ (∀ route : RouteInfo, route.handler = "anonymous" ∨ route.handler = "inline function" →
      jvalLookup (buildOperation route) "operationId"
        = some (.str (strToLower route.method ++ getResourceFromPath route.path
            ++ (if route.path.data.contains ':' then "ById" else ""))))
    ∧ (parseRoutes 50 [usersGetCall] "users.ts" = [usersGetRecord]
        ∧ jvalLookup (jsGet (jsGet (JVal.obj
              (addRoutes initialDocument (parseRoutes 50 [usersGetCall] "users.ts")).paths)
              "/users/{id}") "get") "operationId"
          = some (.str "handler")) := by
  refine ⟨?_, ?_, rfl, rfl⟩
  · intro route h1 h2
    have hb : (route.handler != "anonymous" && route.handler != "inline function") = true := by
      simp [Bool.and_eq_true, bne_iff_ne]
      exact ⟨h1, h2⟩
    cases hC : ((route.method == "POST" || route.method == "PUT" || route.method == "PATCH")
        && !(route.parameters.filter (·.type == "body")).isEmpty) with
    | true => simp [buildOperation, hC, hb, jvalLookup, List.lookup]
    | false => simp [buildOperation, hC, hb, jvalLookup, List.lookup]
  · intro route h
    have hb : (route.handler != "anonymous" && route.handler != "inline function") = false := by
      rcases h with h | h <;> simp [h]
    have hgen : generateOperationId route
        = strToLower route.method ++ getResourceFromPath route.path
          ++ (if route.path.data.contains ':' then "ById" else "") := by
      unfold generateOperationId
      cases hcol : route.path.data.contains ':' with
      | true => simp [hcol]
      | false => simp [hcol]
    cases hC : ((route.method == "POST" || route.method == "PUT" || route.method == "PATCH")
        && !(route.parameters.filter (·.type == "body")).isEmpty) with
    | true => simp [buildOperation, hC, hb, jvalLookup, List.lookup, hgen]
    | false => simp [buildOperation, hC, hb, jvalLookup, List.lookup, hgen]

/-- Witness for `operationId_precedence` (both hypothesis-bearing
conjuncts, instantiated concretely). -/
theorem operationId_precedence_witness :
    jvalLookup (buildOperation usersGetRecord) "operationId" = some (.str "handler")
    ∧ jvalLookup (buildOperation { usersGetRecord with handler := "inline function" }) "operationId"
        = some (.str (strToLower "GET" ++ getResourceFromPath "/users/:id"
            ++ (if "/users/:id".data.contains ':' then "ById" else ""))) :=
  ⟨operationId_precedence.1 usersGetRecord (by decide) (by decide),
    operationId_precedence.2.1 { usersGetRecord with handler := "inline function" } (Or.inr rfl)⟩

/-! ## Claim C8: non-literal path arguments are skipped -/

/-- **C8.** A candidate route-registration call whose first argument is not
a string literal yields no record (`extractRouteInfo` returns `none`, it
does not raise), while a sibling call with a literal path still yields one:
`router.get(pathVar, handler)` contributes nothing and
`router.get('/valid', handler)` contributes exactly one record. -/
theorem parseRoutes_excludes_nonliteral :
    (∀ (fuel : Nat) (callee : JNode) (args : List JNode) (method filePath : String),
      (∀ s, args.head? ≠ some (JNode.strLit s)) →
      extractRouteInfo fuel (.callExpr callee args) method filePath = none)
    ∧ parseRoutes 50
        [.callExpr (.memberExpr (.ident "router") (.ident "get"))
           [.ident "pathVar", .ident "handler"],
         .callExpr (.memberExpr (.ident "router") (.ident "get"))
           [.strLit "/valid", .ident "handler"]]
        "routes.ts"
      = [{ method := "GET", path := "/valid", handler := "handler", description := none,
           parameters := [], responses := [defaultResponse], middlewares := [],
           filePath := "routes.ts", lineNumber := none }] := by
  constructor
  · intro fuel callee args method filePath h
    cases hh : args.head? with
    | none => simp [extractRouteInfo, hh]
    | some n => cases n <;> simp_all [extractRouteInfo]
  · rfl

/-- Witness for `parseRoutes_excludes_nonliteral`: the dynamic-path call of
its own scenario, checked directly against `extractRouteInfo`. -/
theorem parseRoutes_excludes_nonliteral_witness :
    extractRouteInfo 50 (.callExpr (.memberExpr (.ident "router") (.ident "get"))
        [.ident "pathVar", .ident "handler"]) "GET" "routes.ts" = none :=
  parseRoutes_excludes_nonliteral.1 50 _ _ "GET" "routes.ts" (by intro s h; simp at h)

/-! ## Claim C4: responses are never empty -/

lemma ite_responses_ne_nil (resp : List RouteResponse) :
    (if resp.isEmpty then [defaultResponse] else resp) ≠ [] := by
  cases resp <;> simp

/-- **C4.** Every record the extractor produces has a non-empty `responses`
list; a plain-identifier handler (whose body is not inspectable) yields
exactly the synthesized `{200, "Success", "application/json"}` response; and
whenever the response scan of a handler body finds nothing,
`extractResponseInfo` returns exactly that synthesized response. -/
theorem responses_never_empty :
    (∀ (fuel : Nat) (node : JNode) (method filePath : String) (r : RouteInfo),
        extractRouteInfo fuel node method filePath = some r → r.responses ≠ [])
    ∧ (∀ (fuel : Nat) (callee : JNode) (args : List JNode) (method filePath : String)
        (r : RouteInfo) (nm : String),
        args.getLast? = some (.ident nm) →
        extractRouteInfo fuel (.callExpr callee args) method filePath = some r →
        r.responses = [defaultResponse])
    ∧ (∀ (fuel : Nat) (handler : JNode), scanNodes respUpdate fuel [handler] [] = [] →
        extractResponseInfo fuel handler = [defaultResponse]) := by
  refine ⟨?_, ?_, ?_⟩
  · intro fuel node method filePath r hsome
    cases node
    case callExpr callee args =>
      simp only [extractRouteInfo] at hsome
      cases hh : args.head? with
      | none => rw [hh] at hsome; exact Option.noConfusion hsome
      | some n =>
          rw [hh] at hsome
          cases n
          case strLit s =>
            obtain rfl := Option.some.inj hsome
            exact ite_responses_ne_nil _
          all_goals exact Option.noConfusion hsome
    all_goals exact Option.noConfusion hsome
  · intro fuel callee args method filePath r nm hlast hsome
    simp only [extractRouteInfo] at hsome
    cases hh : args.head? with
    | none => rw [hh] at hsome; exact Option.noConfusion hsome
    | some n =>
        rw [hh] at hsome
        cases n
        case strLit s =>
          rw [hlast] at hsome
          obtain rfl := Option.some.inj hsome
          rfl
        all_goals exact Option.noConfusion hsome
  · intro fuel handler hscan
    simp [extractResponseInfo, hscan]

/-- Witness for `responses_never_empty` at concrete inputs: the
identifier-handler route of the C7 scenario. -/
theorem responses_never_empty_witness :
    usersGetRecord.responses ≠ []
    ∧ usersGetRecord.responses = [defaultResponse]
    ∧ extractResponseInfo 50 (.ident "handler") = [defaultResponse] :=
  ⟨responses_never_empty.1 50 usersGetCall "GET" "users.ts" usersGetRecord rfl,
    responses_never_empty.2.1 50 (.memberExpr (.ident "router") (.ident "get"))
      [.strLit "/users/:id", .ident "handler"] "GET" "users.ts" usersGetRecord "handler" rfl rfl,
    responses_never_empty.2.2 50 (.ident "handler") rfl⟩

lemma sendAux_calls_le (transport : Nat → Except TransportErr String) :
    ∀ (remaining retryCount : Nat),
      (sendAux transport retryCount remaining).2.1 ≤ remaining := by
  intro remaining
  induction remaining with
  | zero => intro k; simp [sendAux]
  | succ n ih =>
      intro k
      unfold sendAux
      cases transport k with
      | ok r => simp
      | error e =>
          by_cases hc : (n > 0 && isRetryableError e) = true
          · simp only [hc, if_true]
            have := ih (k + 1)
            simpa using Nat.add_le_add_right this 1
          · simp only [hc, if_false]
            simp

/-- **C3.** The completion client's retry protocol: (i) at most
`maxRetries + 1 = 4` transport calls are ever made; (ii) a non-retryable
first failure (e.g. 401 or 400) is surfaced immediately after exactly one
call, with no backoff sleeps; (iii) a 401 maps to the invalid-API-key
message (and 400 to the Bad-Request-style API-error message); (iv) three
consecutive 429 responses followed by a success yield the successful
content after exactly 4 calls, with backoff delays of 2^0, 2^1, 2^2
seconds between attempts; retries happen only for 429/5xx failures
(`isRetryableError`). -/
theorem retry_protocol :
    (∀ transport : Nat → Except TransportErr String,
      (sendRequestWithRetry transport).2.1 ≤ 4)
    ∧ (∀ (transport : Nat → Except TransportErr String) (e : TransportErr),
        transport 0 = .error e → isRetryableError e = false →
        sendRequestWithRetry transport = (.error e, 1, []))
    ∧ (∀ detail, handleError (.httpError 401 detail)
        = "Invalid API key. Please check your OpenRouter API key.")
    ∧ (isRetryableError (.httpError 401 "") = false
        ∧ isRetryableError (.httpError 400 "") = false
        ∧ isRetryableError (.httpError 429 "") = true
        ∧ isRetryableError (.httpError 503 "") = true
        ∧ isRetryableError .networkError = false)
    ∧ (∀ (transport : Nat → Except TransportErr String) (content : String)
        (d0 d1 d2 : String),
        transport 0 = .error (.httpError 429 d0) →
        transport 1 = .error (.httpError 429 d1) →
        transport 2 = .error (.httpError 429 d2) →
        transport 3 = .ok content →
        sendRequestWithRetry transport = (.ok content, 4, [1000, 2000, 4000])) := by
  refine ⟨?_, ?_, fun _ => rfl, ⟨rfl, rfl, rfl, rfl, rfl⟩, ?_⟩
  · intro transport
    exact sendAux_calls_le transport (maxRetries + 1) 0
  · intro transport e h0 hnr
    show sendAux transport 0 4 = (.error e, 1, [])
    unfold sendAux
    rw [h0]
    simp [hnr]
  · intro transport content d0 d1 d2 h0 h1 h2 h3
    have s3 : sendAux transport 3 1 = (.ok content, 1, []) := by
      unfold sendAux; rw [h3]
    have s2 : sendAux transport 2 2 = (.ok content, 2, [4000]) := by
      unfold sendAux; rw [h2]; simp [isRetryableError, s3]
    have s1 : sendAux transport 1 3 = (.ok content, 3, [2000, 4000]) := by
      unfold sendAux; rw [h1]; simp [isRetryableError, s2]
    show sendAux transport 0 4 = (.ok content, 4, [1000, 2000, 4000])
    unfold sendAux
    rw [h0]
    simp [isRetryableError, s1]

/-- Witness for `retry_protocol` at concrete transports: a stubbed
three-429s-then-success transport, and an always-401 transport. -/
theorem retry_protocol_witness :
    sendRequestWithRetry (fun k => if k < 3 then .error (.httpError 429 "") else .ok "yaml: ok")
      = (.ok "yaml: ok", 4, [1000, 2000, 4000])
    ∧ sendRequestWithRetry (fun _ => .error (.httpError 401 ""))
      = (.error (.httpError 401 ""), 1, [])
    ∧ (sendRequestWithRetry (fun _ => .error (.httpError 401 ""))).2.1 ≤ 4 :=
  ⟨retry_protocol.2.2.2.2 (fun k => if k < 3 then .error (.httpError 429 "") else .ok "yaml: ok")
      "yaml: ok" "" "" "" rfl rfl rfl rfl,
    retry_protocol.2.1 (fun _ => .error (.httpError 401 "")) (.httpError 401 "") rfl rfl,
    retry_protocol.1 (fun _ => .error (.httpError 401 ""))⟩

lemma resultExt_self (r : ValidationResult) : ResultExt r r :=
  ⟨⟨[], by simp⟩, ⟨[], by simp⟩, fun h => h⟩

lemma resultExt_trans {a b c : ValidationResult} (h1 : ResultExt a b) (h2 : ResultExt b c) :
    ResultExt a c := by
  obtain ⟨⟨es1, he1⟩, ⟨ws1, hw1⟩, hv1⟩ := h1
  obtain ⟨⟨es2, he2⟩, ⟨ws2, hw2⟩, hv2⟩ := h2
  exact ⟨⟨es1 ++ es2, by rw [he2, he1, List.append_assoc]⟩,
    ⟨ws1 ++ ws2, by rw [hw2, hw1, List.append_assoc]⟩, fun h => hv2 (hv1 h)⟩

lemma resultExt_pushWarn (r : ValidationResult) (w : ValidationWarning) :
    ResultExt r (pushWarn r w) :=
  ⟨⟨[], by simp [pushWarn]⟩, ⟨[w], rfl⟩, fun h => h⟩

lemma resultExt_pushErr (r : ValidationResult) (e : ValidationError) :
    ResultExt r (pushErr r e) :=
  ⟨⟨[e], rfl⟩, ⟨[], by simp [pushErr]⟩, fun _ => rfl⟩

lemma resultExt_mem_warnings {r1 r2 : ValidationResult} (h : ResultExt r1 r2)
    {w : ValidationWarning} (hw : w ∈ r1.warnings) : w ∈ r2.warnings := by
  obtain ⟨_, ⟨ws, hws⟩, _⟩ := h
  rw [hws]
  exact List.mem_append_left _ hw

lemma resultExt_mem_errors {r1 r2 : ValidationResult} (h : ResultExt r1 r2)
    {e : ValidationError} (he : e ∈ r1.errors) : e ∈ r2.errors := by
  obtain ⟨⟨es, hes⟩, _, _⟩ := h
  rw [hes]
  exact List.mem_append_left _ he

lemma validateParams_ext (operationPath : String) :
    ∀ (ps : List JVal) (i : Nat) (r : ValidationResult),
      ResultExt r (validateParams operationPath ps i r) := by
  intro ps
  induction ps with
  | nil => intro i r; exact resultExt_self r
  | cons p rest ih =>
      intro i r
      unfold validateParams
      refine resultExt_trans ?_ (ih (i + 1) _)
      repeat
        first
        | exact resultExt_self _
        | split
        | refine resultExt_trans ?_ (resultExt_pushErr _ _)

lemma vOpSummaryStage_ext (op : JVal) (p : String) (res : ValidationResult) :
    ResultExt res (vOpSummaryStage op p res) := by
  unfold vOpSummaryStage
  split
  · exact resultExt_pushWarn _ _
  · exact resultExt_self _

lemma vOpResponsesStage_ext (op : JVal) (p : String) (res : ValidationResult) :
    ResultExt res (vOpResponsesStage op p res) := by
  unfold vOpResponsesStage
  split
  · exact resultExt_pushErr _ _
  · exact resultExt_self _

lemma vOp2xxStage_ext (op : JVal) (p : String) (res : ValidationResult) :
    ResultExt res (vOp2xxStage op p res) := by
  unfold vOp2xxStage
  split
  · split
    · exact resultExt_pushWarn _ _
    · exact resultExt_self _
  · exact resultExt_self _

lemma exceptResult_ite_ext (c : Prop) [inst : Decidable c] (res : ValidationResult) :
    ResultExt res (exceptResult (if c then .error res else .ok res)) := by
  split <;> (simp only [exceptResult]; exact resultExt_self _)

lemma vOpParamsStage_ext (op : JVal) (p : String) (res : ValidationResult) :
    ResultExt res (exceptResult (vOpParamsStage op p res)) := by
  unfold vOpParamsStage
  cases hp : jsGet op "parameters"
  case arr params =>
    simp only [exceptResult]
    exact validateParams_ext _ _ _ _
  all_goals exact exceptResult_ite_ext _ _

lemma validateOperation_ext (op : JVal) (operationPath : String) (r : ValidationResult) :
    ResultExt r (exceptResult (validateOperation op operationPath r)) := by
  unfold validateOperation
  refine resultExt_trans (resultExt_trans (resultExt_trans
    (vOpSummaryStage_ext op operationPath r) (vOpResponsesStage_ext op operationPath _))
    (vOp2xxStage_ext op operationPath _)) (vOpParamsStage_ext op operationPath _)

lemma validateOps_ext (path : String) (pathItem : JVal) :
    ∀ (ms : List String) (res : ValidationResult),
      ResultExt res (exceptResult (validateOps path pathItem ms res)) := by
  intro ms
  induction ms with
  | nil => intro res; exact resultExt_self res
  | cons m rest ih =>
      intro res
      unfold validateOps
      split
      · cases hop : validateOperation (jsGet pathItem m) (path ++ "." ++ m) res with
        | error r =>
            have := validateOperation_ext (jsGet pathItem m) (path ++ "." ++ m) res
            rw [hop] at this
            simpa [exceptResult] using this
        | ok r =>
            have h1 := validateOperation_ext (jsGet pathItem m) (path ++ "." ++ m) res
            rw [hop] at h1
            simp only [exceptResult] at h1
            exact resultExt_trans h1 (ih r)
      · exact ih res

lemma validatePaths_ext :
    ∀ (entries : List (String × JVal)) (res : ValidationResult),
      ResultExt res (exceptResult (validatePaths entries res)) := by
  intro entries
  induction entries with
  | nil => intro res; exact resultExt_self res
  | cons kv rest ih =>
      intro res
      obtain ⟨path, pathItem⟩ := kv
      unfold validatePaths
      have hstart : ResultExt res (vPathStartCheck path res) := by
        unfold vPathStartCheck
        split
        · exact resultExt_pushWarn _ _
        · exact resultExt_self _
      refine resultExt_trans hstart ?_
      cases hops : validateOps path pathItem lowerMethods (vPathStartCheck path res) with
      | error r =>
          have h1 := validateOps_ext path pathItem lowerMethods (vPathStartCheck path res)
          rw [hops] at h1
          simpa [exceptResult] using h1
      | ok r =>
          have h1 := validateOps_ext path pathItem lowerMethods (vPathStartCheck path res)
          rw [hops] at h1
          simp only [exceptResult] at h1
          exact resultExt_trans h1 (ih r)

lemma vOpenapiStage_ext (d : ValDoc) (res : ValidationResult) :
    ResultExt res (vOpenapiStage d res) := by
  unfold vOpenapiStage
  split
  · exact resultExt_pushWarn _ _
  · exact resultExt_self _

lemma vInfoStage_ext (d : ValDoc) (res : ValidationResult) :
    ResultExt res (vInfoStage d res) := by
  unfold vInfoStage
  cases d.info
  · exact resultExt_pushErr _ _
  · exact resultExt_self _

lemma vPathsWarnStage_ext (d : ValDoc) (res : ValidationResult) :
    ResultExt res (vPathsWarnStage d res) := by
  unfold vPathsWarnStage
  split
  · exact resultExt_pushWarn _ _
  · exact resultExt_self _

lemma vInfoTitleCheck_ext (title : Option String) (res : ValidationResult) :
    ResultExt res (vInfoTitleCheck title res) := by
  unfold vInfoTitleCheck
  split
  · exact resultExt_pushErr _ _
  · exact resultExt_self _

lemma vInfoVersionCheck_ext (version : Option String) (res : ValidationResult) :
    ResultExt res (vInfoVersionCheck version res) := by
  unfold vInfoVersionCheck
  split
  · exact resultExt_pushErr _ _
  · exact resultExt_self _

lemma vInfoFieldsStage_ext (d : ValDoc) (res : ValidationResult) :
    ResultExt res (vInfoFieldsStage d res) := by
  unfold vInfoFieldsStage
  cases hinfo : d.info with
  | none => exact resultExt_self _
  | some tv =>
      obtain ⟨title, version⟩ := tv
      exact resultExt_trans (vInfoTitleCheck_ext title res)
        (vInfoVersionCheck_ext version (vInfoTitleCheck title res))

lemma vPathsRunStage_ext (d : ValDoc) (res : ValidationResult) :
    ResultExt res (exceptResult (vPathsRunStage d res)) := by
  unfold vPathsRunStage
  cases d.paths with
  | none => exact resultExt_self _
  | some l => exact validatePaths_ext l res

lemma vTagsCheck_ext (ts : List JVal) (res : ValidationResult) :
    ResultExt res (vTagsCheck ts res) := by
  unfold vTagsCheck
  split
  · exact resultExt_pushWarn _ _
  · exact resultExt_self _

lemma vTagsStage_ext (d : ValDoc) (res : ValidationResult) :
    ResultExt res (vTagsStage d res) := by
  unfold vTagsStage
  cases d.tags with
  | none => exact resultExt_self _
  | some ts => exact vTagsCheck_ext ts res

lemma vSchemasCheck_ext (ss : List (String × JVal)) (res : ValidationResult) :
    ResultExt res (vSchemasCheck ss res) := by
  unfold vSchemasCheck
  split
  · exact resultExt_pushWarn _ _
  · exact resultExt_self _

lemma vSchemasStage_ext (d : ValDoc) (res : ValidationResult) :
    ResultExt res (vSchemasStage d res) := by
  unfold vSchemasStage
  cases d.schemas with
  | none => exact resultExt_self _
  | some ss => exact vSchemasCheck_ext ss res

/-- Everything after the empty-paths warning stage only extends the result. -/
lemma performCustom_tail_ext (d : ValDoc) (res : ValidationResult) :
    ResultExt (vPathsWarnStage d (vInfoStage d (vOpenapiStage d res)))
      (exceptResult (performCustomValidations d res)) := by
  unfold performCustomValidations
  refine resultExt_trans (vInfoFieldsStage_ext d _) ?_
  cases hrun : vPathsRunStage d (vInfoFieldsStage d
      (vPathsWarnStage d (vInfoStage d (vOpenapiStage d res)))) with
  | error r =>
      have h1 := vPathsRunStage_ext d (vInfoFieldsStage d
        (vPathsWarnStage d (vInfoStage d (vOpenapiStage d res))))
      rw [hrun] at h1
      simpa [exceptResult] using h1
  | ok r =>
      have h1 := vPathsRunStage_ext d (vInfoFieldsStage d
        (vPathsWarnStage d (vInfoStage d (vOpenapiStage d res))))
      rw [hrun] at h1
      simp only [exceptResult] at h1
      exact resultExt_trans h1
        (resultExt_trans (vTagsStage_ext d r) (vSchemasStage_ext d (vTagsStage d r)))

/-- **C9.** `validateDocument` on a document whose `paths` object is empty
always returns a warning "No paths defined in the document" (which mentions
"No paths defined"); on a document missing `info` it always returns
`isValid = false` together with the error "Missing required field: info"
(which mentions "info").  Both are returned in the `ValidationResult` — the
embedding is a total function; nothing is thrown — and both hold for every
outcome of the delegated schema check and every other document content,
including a custom-validation exception caught by the `try/catch`. -/
theorem validateDocument_spec :
    (∀ (d : ValDoc) (ext : List ValidationError), d.paths = some [] →
        (⟨"No paths defined in the document", some "/paths",
          some "Add at least one API endpoint"⟩ : ValidationWarning)
          ∈ (validateDocument d ext).warnings)
    ∧ (∀ (d : ValDoc) (ext : List ValidationError), d.info = none →
        (validateDocument d ext).isValid = false
        ∧ (⟨"Missing required field: info", some "/info", none⟩ : ValidationError)
            ∈ (validateDocument d ext).errors) := by
  constructor
  · intro d ext h
    have hw : (⟨"No paths defined in the document", some "/paths",
          some "Add at least one API endpoint"⟩ : ValidationWarning)
        ∈ (vPathsWarnStage d (vInfoStage d (vOpenapiStage d (vInitRes ext)))).warnings := by
      unfold vPathsWarnStage
      rw [h]
      simp [pushWarn]
    have hmem := resultExt_mem_warnings (performCustom_tail_ext d (vInitRes ext)) hw
    unfold validateDocument
    cases hp : performCustomValidations d (vInitRes ext) with
    | ok r =>
        rw [hp] at hmem
        simp only [exceptResult] at hmem
        exact hmem
    | error r =>
        rw [hp] at hmem
        simp only [exceptResult] at hmem
        exact hmem
  · intro d ext h
    have he : (⟨"Missing required field: info", some "/info", none⟩ : ValidationError)
          ∈ (vInfoStage d (vOpenapiStage d (vInitRes ext))).errors
        ∧ (vInfoStage d (vOpenapiStage d (vInitRes ext))).isValid = false := by
      unfold vInfoStage
      rw [h]
      exact ⟨by simp [pushErr], rfl⟩
    have h3 := vPathsWarnStage_ext d (vInfoStage d (vOpenapiStage d (vInitRes ext)))
    have htail := performCustom_tail_ext d (vInitRes ext)
    have hcomb := resultExt_trans h3 htail
    have hmem := resultExt_mem_errors hcomb he.1
    have hval := hcomb.2.2 he.2
    unfold validateDocument
    cases hp : performCustomValidations d (vInitRes ext) with
    | ok r =>
        rw [hp] at hmem hval
        simp only [exceptResult] at hmem hval
        exact ⟨hval, hmem⟩
    | error r =>
        rw [hp] at hmem
        simp only [exceptResult] at hmem
        exact ⟨rfl, List.mem_append_left _ hmem⟩

/-- Witness for `validateDocument_spec` on a concrete document with empty
paths and missing info. -/
theorem validateDocument_spec_witness :
    (⟨"No paths defined in the document", some "/paths",
        some "Add at least one API endpoint"⟩ : ValidationWarning)
      ∈ (validateDocument
          { openapi := some "3.1.0", info := none, paths := some [],
            tags := none, schemas := none } []).warnings
    ∧ (validateDocument
          { openapi := some "3.1.0", info := none, paths := some [],
            tags := none, schemas := none } []).isValid = false :=
  ⟨validateDocument_spec.1 _ [] rfl, (validateDocument_spec.2 _ [] rfl).1⟩
